import Mathlib

/-!
Verification development for the idempotent wallet / daily interest repository.

The TypeScript sources are embedded shallowly:
* monetary values are exact rationals (`ℚ`); the decimal.js configuration
  (precision 20 significant digits, ROUND_HALF_UP) is modelled by explicit
  rounding functions;
* the database is explicit state (lists of rows); every service function is a
  pure state transformer returning its outcome, the committed state and, for
  the transfer engine, the trace of row-lock acquisitions;
* JavaScript `Date` values are epoch milliseconds; the process time zone is an
  explicit offset parameter (minutes, with the sign convention of
  `Date.prototype.getTimezoneOffset`).
-/

namespace IdempotentWallet

/-! ### Decimal arithmetic (decimal.js model)

`Decimal.set({ precision: 20, rounding: Decimal.ROUND_HALF_UP })` in
`src/modules/interest/services/interest.service.ts` makes every decimal.js
operation round its result to 20 significant digits, ties away from zero.
-/

/-- Number of base-10 digits of `n` (for `n ≥ 1`), with explicit fuel so that
the recursion is structural. -/
def digitsLen : Nat → Nat → Nat
  | 0, _ => 0
  | fuel + 1, n => if n < 10 then 1 else digitsLen fuel (n / 10) + 1

/-- Base-10 digit count of a natural number. -/
def natDigits (n : Nat) : Nat := digitsLen n n

/-- The decimal exponent of a nonzero rational: the unique `e` with
`10 ^ e ≤ |x| < 10 ^ (e + 1)`. -/
def qExp (x : ℚ) : ℤ :=
  if 1 ≤ |x| then (natDigits (Int.toNat ⌊|x|⌋) : ℤ) - 1
  else -(natDigits (Int.toNat (⌈|x|⁻¹⌉ - 1)) : ℤ)

/-- Round to an integer, half away from zero (decimal.js ROUND_HALF_UP). -/
def roundHalfUpAway (x : ℚ) : ℤ :=
  if 0 ≤ x then ⌊x + 1 / 2⌋ else -⌊-x + 1 / 2⌋

/-- Round `x` keeping `s` decimal places (`s` may be negative), ties away
from zero. -/
def roundAtScale (s : ℤ) (x : ℚ) : ℚ :=
  (roundHalfUpAway (x * 10 ^ s) : ℚ) / 10 ^ s

/-- Round `x` to `p` significant digits, ties away from zero: the rounding
decimal.js applies to every arithmetic result under precision `p`. -/
def roundSig (p : Nat) (x : ℚ) : ℚ :=
  if x = 0 then 0 else roundAtScale ((p : ℤ) - 1 - qExp x) x

/-- decimal.js `dividedBy` at the configured precision 20. -/
def decDiv (x y : ℚ) : ℚ := roundSig 20 (x / y)

/-- decimal.js `times` at the configured precision 20. -/
def decMul (x y : ℚ) : ℚ := roundSig 20 (x * y)

/-- decimal.js `plus` at the configured precision 20. -/
def decAdd (x y : ℚ) : ℚ := roundSig 20 (x + y)

/-- decimal.js `toFixed(s)` under ROUND_HALF_UP: the value persisted with
exactly `s` fractional digits. -/
def decToFixed (s : Nat) (x : ℚ) : ℚ := roundAtScale s x

/-! ### Interest mathematics

Direct translations of the pure functions of
`src/modules/interest/services/interest.service.ts`.
-/

/-- `ANNUAL_INTEREST_RATE`, a decimal built from the literal string 0.275. -/
def ANNUAL_INTEREST_RATE : ℚ := 275 / 1000

/-- `isLeapYear(year)`: divisible by 4 and not by 100, or divisible by 400. -/
def isLeapYear (year : ℤ) : Bool :=
  (year % 4 == 0 && year % 100 != 0) || year % 400 == 0

/-- `getDaysInYear(year)`: 366 for leap years, otherwise 365. -/
def getDaysInYear (year : ℤ) : Nat :=
  if isLeapYear year then 366 else 365

/-- `calculateDailyRate(year) = ANNUAL_INTEREST_RATE.dividedBy(daysInYear)`. -/
def calculateDailyRate (year : ℤ) : ℚ :=
  decDiv ANNUAL_INTEREST_RATE (getDaysInYear year)

/-- `calculateInterest(principal, dailyRate) = principal.times(dailyRate)`. -/
def calculateInterest (principal dailyRate : ℚ) : ℚ :=
  decMul principal dailyRate

/-- `calculateNewBalance(principal, interest) = principal.plus(interest)`. -/
def calculateNewBalance (principal interest : ℚ) : ℚ :=
  decAdd principal interest

/-! ### Calendar model for JavaScript Date

An instant is its epoch-millisecond value.  `toISOString` renders the UTC
civil date; `getFullYear` renders the civil year in the process time zone,
where local time = UTC − `getTimezoneOffset()` minutes.
-/

/-- A civil (proleptic Gregorian) calendar date. -/
structure CivilDate where
  year : ℤ
  month : ℕ
  day : ℕ
deriving DecidableEq, Repr

/-- Civil date from days since the Unix epoch (standard days-to-civil
algorithm; floor division makes it valid for all inputs). -/
def civilFromDays (z : ℤ) : CivilDate :=
  let shifted : ℤ := z + 719468
  let era : ℤ := Int.fdiv shifted 146097
  let doe : ℕ := (shifted - era * 146097).toNat
  let yoe : ℕ := (doe - doe / 1460 + doe / 36524 - doe / 146096) / 365
  let y : ℤ := (yoe : ℤ) + era * 400
  let doy : ℕ := doe - (365 * yoe + yoe / 4 - yoe / 100)
  let mp : ℕ := (5 * doy + 2) / 153
  let d : ℕ := doy - (153 * mp + 2) / 5 + 1
  let m : ℕ := if mp < 10 then mp + 3 else mp - 9
  { year := if m ≤ 2 then y + 1 else y, month := m, day := d }

def MS_PER_DAY : ℤ := 86400000

def MS_PER_MINUTE : ℤ := 60000

/-- The UTC calendar date of an instant: what
the date part of `toISOString()` denotes. -/
def utcDateOfMs (ms : ℤ) : CivilDate :=
  civilFromDays (Int.fdiv ms MS_PER_DAY)

/-- The civil year of an instant in the process time zone: what
`date.getFullYear()` denotes when `getTimezoneOffset()` returns
`tzOffsetMin`. -/
def localYearOfMs (tzOffsetMin ms : ℤ) : ℤ :=
  (civilFromDays (Int.fdiv (ms - tzOffsetMin * MS_PER_MINUTE) MS_PER_DAY)).year

/-! ### JavaScript number model (IEEE 754 binary64 over exact rationals)

The wallet engine does its money arithmetic on JavaScript numbers: wallet
balances come out of the `DECIMAL(20, 2)` columns through the model getter
`parseFloat(value.toString())`, the request amount arrives as the JSON
number of the body, and the engine computes
`parseFloat((balance - amount).toFixed(2))`.  Every value involved is an
exact rational, so the whole pipeline is modelled over fractions of
integers: a `Frac` is an unreduced pair of integers (denominator positive by
construction), `toDouble` rounds a fraction to the nearest binary64 value
(52 fractional significand bits, ties to even) and returns it as an exact
fraction, and each JavaScript operation is the exact rational operation
followed by `toDouble`.  Exponents are modelled for the whole finite double
range; overflow to infinity and subnormal underflow lie far outside the
monetary magnitudes handled here and are not modelled.

Decimal strings: a numeral of at most 15 significant digits parses to a
double whose shortest round-trip representation — what `toString`,
`JSON.stringify` and the Sequelize serializer emit — is that numeral again.
Request amounts are therefore carried as the exact rational value of the
client numeral; the value PostgreSQL receives for a `DECIMAL(20, 2)` column
is that numeral, which it rounds to scale 2 half away from zero
(`pgRound2Cents`).  `toFixed(2)` rounds the exact binary64 value to the
nearest scale-2 decimal, ties to the larger integer (`round2ToCents`), and
the 2-decimal string committed to the column stores those cents exactly.
-/

/-- An exact rational as an unreduced fraction of integers.  All constructors
in this development keep `den` positive. -/
structure Frac where
  num : ℤ
  den : ℤ
deriving DecidableEq, Repr

/-- Number of binary digits of `n` (fuel-based structural recursion; the fuel
2048 covers all exponents of the binary64 range and far beyond). -/
def binLenAux : Nat → Nat → Nat
  | 0, _ => 0
  | fuel + 1, n => if n < 2 then 1 else binLenAux fuel (n / 2) + 1

def binLen (n : Nat) : Nat := binLenAux 2048 n

def pow2 (k : ℕ) : ℤ := Int.ofNat (2 ^ k)

/-- The binary exponent `e` with `2 ^ e ≤ num / den < 2 ^ (e + 1)`, for
positive `num` and `den`.  For values below one it counts the digits of
`⌈den / num⌉ - 1`, mirroring the digit-count treatment of small decimals. -/
def binExp (num den : ℤ) : ℤ :=
  if den ≤ num then (binLen (Int.fdiv num den).toNat : ℤ) - 1
  else -(binLen (-(Int.fdiv (-den) num) - 1).toNat : ℤ)

/-- Round the fraction `num / den` (with `den` positive) to the nearest
integer, ties to even — the IEEE 754 default rounding. -/
def roundNearestEven (num den : ℤ) : ℤ :=
  let n := Int.fdiv num den
  let r := 2 * (num - n * den)
  if r < den then n else if den < r then n + 1 else if n % 2 = 0 then n else n + 1

/-- The binary64 value nearest to the positive fraction `num / den`: scale
into `[2 ^ 52, 2 ^ 53)`, round the significand to the nearest integer ties
to even, scale back. -/
def toDoublePos (num den : ℤ) : Frac :=
  let s : ℤ := 52 - binExp num den
  if 0 ≤ s then ⟨roundNearestEven (num * pow2 s.toNat) den, pow2 s.toNat⟩
  else ⟨roundNearestEven num (den * pow2 (-s).toNat) * pow2 (-s).toNat, 1⟩

/-- The binary64 value of an exact rational (`den` positive): the JavaScript
number a decimal string parses to, and the rounding applied after every
arithmetic operation on doubles. -/
def toDouble (x : Frac) : Frac :=
  if x.num = 0 then ⟨0, 1⟩
  else if 0 < x.num then toDoublePos x.num x.den
  else ⟨-(toDoublePos (-x.num) x.den).num, (toDoublePos (-x.num) x.den).den⟩

def fracSub (a b : Frac) : Frac := ⟨a.num * b.den - b.num * a.den, a.den * b.den⟩

def fracAdd (a b : Frac) : Frac := ⟨a.num * b.den + b.num * a.den, a.den * b.den⟩

/-- IEEE 754 subtraction of two binary64 values: the exact difference,
rounded back to a binary64 value. -/
def ieeeSub (a b : Frac) : Frac := toDouble (fracSub a b)

/-- IEEE 754 addition of two binary64 values. -/
def ieeeAdd (a b : Frac) : Frac := toDouble (fracAdd a b)

/-- `a < b` on exact fraction values (`den` positive on both sides); the
JavaScript `<` on the corresponding doubles. -/
def fracLt (a b : Frac) : Prop := a.num * b.den < b.num * a.den

instance (a b : Frac) : Decidable (fracLt a b) :=
  inferInstanceAs (Decidable (a.num * b.den < b.num * a.den))

/-- `x <= 0` on an exact fraction value (`den` positive); the JavaScript
comparison `amount <= 0` on the corresponding double. -/
def fracNonpos (x : Frac) : Prop := x.num ≤ 0

instance (x : Frac) : Decidable (fracNonpos x) :=
  inferInstanceAs (Decidable (x.num ≤ 0))

/-- Rendering of a fraction in messages (`toString num / toString den`); the
source interpolates the JavaScript number, whose exact digits the claims
never depend on. -/
def fracText (x : Frac) : String := toString x.num ++ "/" ++ toString x.den

/-- `d.toFixed(2)` then `parseFloat`, committed to a `DECIMAL(20, 2)` column,
in cents: ECMAScript `toFixed` picks the scale-2 decimal nearest to the exact
binary64 value `d`, ties to the larger integer numerator, hence
`⌊100 d + 1 / 2⌋`. -/
def round2ToCents (x : Frac) : ℤ := Int.fdiv (200 * x.num + x.den) (2 * x.den)

/-- PostgreSQL rounding of a numeric inserted into a `DECIMAL(20, 2)` column:
scale 2, half away from zero, in cents. -/
def pgRound2Cents (x : Frac) : ℤ :=
  if 0 ≤ x.num then Int.fdiv (200 * x.num + x.den) (2 * x.den)
  else -(Int.fdiv (200 * (-x.num) + x.den) (2 * x.den))

/-- The JavaScript number of a stored wallet balance of `b` cents: the model
getter applies `parseFloat` to the `DECIMAL(20, 2)` string `b / 100`. -/
def jsWalletBalance (b : ℤ) : Frac := toDouble ⟨b, 100⟩

/-- `parseFloat((fromWallet.balance - amount).toFixed(2))` as committed to
the balance column, in cents: IEEE subtraction of the parsed balance and the
amount double, then `toFixed(2)`. -/
def jsBalanceAfterSub (b : ℤ) (amountD : Frac) : ℤ :=
  round2ToCents (ieeeSub (jsWalletBalance b) amountD)

/-- `parseFloat((toWallet.balance + amount).toFixed(2))` as committed to the
balance column, in cents. -/
def jsBalanceAfterAdd (b : ℤ) (amountD : Frac) : ℤ :=
  round2ToCents (ieeeAdd (jsWalletBalance b) amountD)

/-- The cents committed when the request amount is inserted into a
`DECIMAL(20, 2)` column (`TransactionLog.amount`, `Ledger.amount`): the
serialized numeral rounded by PostgreSQL to scale 2 half away from zero. -/
def pgAmountCents (amount : Frac) : ℤ := pgRound2Cents amount

/-! ### Wallet data model

Tables of `src/modules/wallet`.  Wallet identifiers are UUID strings compared
lexicographically in the source; they are modelled as naturals with their
order, which is likewise total.  Committed monetary columns are
`DECIMAL(20, 2)` values, held as integers in minor units (cents); request
amounts are the exact rational values of the client numerals, pushed through
the binary64 pipeline above exactly where the source computes on JavaScript
numbers.  Row ids and timestamps come from the one counter `nextId`.
-/

abbrev WalletId := ℕ

inductive TransactionStatus
  | PENDING
  | COMPLETED
  | FAILED
deriving DecidableEq, Repr

/-- Lower-case rendering used in replay messages
(`existingTransaction.status.toLowerCase()`). -/
def statusText : TransactionStatus → String
  | .PENDING => "pending"
  | .COMPLETED => "completed"
  | .FAILED => "failed"

inductive LedgerEntryType
  | DEBIT
  | CREDIT
deriving DecidableEq, Repr

structure WalletRow where
  id : WalletId
  balance : ℤ
deriving DecidableEq, Repr

structure TransactionLogRow where
  id : ℕ
  idempotencyKey : String
  fromWalletId : WalletId
  toWalletId : WalletId
  amount : ℤ
  status : TransactionStatus
  errorMessage : Option String
  createdAt : ℕ
deriving DecidableEq, Repr

structure LedgerRow where
  walletId : WalletId
  transactionLogId : ℕ
  entryType : LedgerEntryType
  amount : ℤ
  balanceBefore : ℤ
  balanceAfter : ℤ
  description : String
deriving DecidableEq, Repr

/-- The committed wallet-side database state. -/
structure DB where
  wallets : List WalletRow
  logs : List TransactionLogRow
  ledgers : List LedgerRow
  nextId : ℕ
deriving DecidableEq, Repr

/-- `TransactionLog.findOne({ where: { idempotencyKey } })`. -/
def findLogByKey : List TransactionLogRow → String → Option TransactionLogRow
  | [], _ => none
  | l :: ls, key => if l.idempotencyKey = key then some l else findLogByKey ls key

/-- `Wallet.findByPk(walletId)`. -/
def findWallet : List WalletRow → WalletId → Option WalletRow
  | [], _ => none
  | w :: ws, wid => if w.id = wid then some w else findWallet ws wid

/-- `wallet.update({ balance })`: overwrites the balance of the row with the
given id. -/
def setWalletBalance (ws : List WalletRow) (wid : WalletId) (b : ℤ) : List WalletRow :=
  ws.map fun w => if w.id = wid then { w with balance := b } else w

/-- The ledger rows referencing a transaction log. -/
def ledgerRowsFor : List LedgerRow → ℕ → List LedgerRow
  | [], _ => []
  | e :: es, logId =>
    if e.transactionLogId = logId then e :: ledgerRowsFor es logId
    else ledgerRowsFor es logId

/-- Sum of CREDIT amounts on a wallet across a ledger list. -/
def creditSum : List LedgerRow → WalletId → ℤ
  | [], _ => 0
  | e :: es, wid =>
    (if e.walletId = wid ∧ e.entryType = .CREDIT then e.amount else 0) + creditSum es wid

/-- Sum of DEBIT amounts on a wallet across a ledger list. -/
def debitSum : List LedgerRow → WalletId → ℤ
  | [], _ => 0
  | e :: es, wid =>
    (if e.walletId = wid ∧ e.entryType = .DEBIT then e.amount else 0) + debitSum es wid

/-- Sum of all wallet balances. -/
def totalBalance : List WalletRow → ℤ
  | [] => 0
  | w :: ws => w.balance + totalBalance ws

def walletIds (ws : List WalletRow) : List WalletId := ws.map (·.id)

/-! ### Transfer engine (`src/modules/wallet/services/transfer.service.ts`) -/

/-- A transfer request; `amount` is the exact rational value of the decimal
numeral in the request body (at most 15 significant digits, so that parsing
and reserializing the JavaScript number round-trips to it). -/
structure TransferRequest where
  idempotencyKey : String
  fromWalletId : WalletId
  toWalletId : WalletId
  amount : Frac
deriving DecidableEq, Repr

inductive TransferError
  | invalidTransfer (message : String)
  | insufficientFunds (message : String)
  | walletNotFound (walletId : WalletId)
  | idempotencyKeyNotFound (message : String)
  | internalError (message : String)
deriving DecidableEq, Repr

/-- The `TransferResult` interface; `isIdempotent?: boolean` is optional, so
it is an `Option Bool` (`none` models the field being absent). -/
structure TransferResult where
  success : Bool
  transactionLog : TransactionLogRow
  message : String
  isIdempotent : Option Bool
deriving DecidableEq, Repr

/-- Observable database side requests issued by the engine; only row-lock
acquisitions (`SELECT ... FOR UPDATE`) are recorded. -/
inductive DBEvent
  | lockWallet (walletId : WalletId)
deriving DecidableEq, Repr

deriving instance DecidableEq for Except

structure TransferOutcome where
  result : Except TransferError TransferResult
  db : DB
  events : List DBEvent
deriving DecidableEq, Repr

/-- The replay response built from an existing `TransactionLog` row
(`executeTransfer`, fast path). -/
def replayResult (l : TransactionLogRow) (message : String) : TransferResult :=
  { success := decide (l.status = TransactionStatus.COMPLETED)
    transactionLog := l
    message := message
    isIdempotent := some true }

/-- The body of the SERIALIZABLE transaction of `executeTransfer`: insert the
PENDING log, lock both wallets in id order, validate, move the balances, emit
the ledger pair and complete the log.  The unique-violation catch of the
source cannot fire here: the key was found absent immediately before, and
this model executes requests one at a time. -/
def runTransferTx (db : DB) (req : TransferRequest) : TransferOutcome :=
  let pendingLog : TransactionLogRow :=
    { id := db.nextId
      idempotencyKey := req.idempotencyKey
      fromWalletId := req.fromWalletId
      toWalletId := req.toWalletId
      amount := pgAmountCents req.amount
      status := .PENDING
      errorMessage := none
      createdAt := db.nextId }
  let firstId := if req.fromWalletId < req.toWalletId then req.fromWalletId else req.toWalletId
  let secondId := if req.fromWalletId < req.toWalletId then req.toWalletId else req.fromWalletId
  let events := [DBEvent.lockWallet firstId, DBEvent.lockWallet secondId]
  let firstWallet := findWallet db.wallets firstId
  let secondWallet := findWallet db.wallets secondId
  let fromWallet := if req.fromWalletId = firstId then firstWallet else secondWallet
  let toWallet := if req.toWalletId = firstId then firstWallet else secondWallet
  match fromWallet with
  | none =>
    let failedLog := { pendingLog with
      status := TransactionStatus.FAILED
      errorMessage := some ("Source wallet not found: " ++ toString req.fromWalletId) }
    ⟨.error (.walletNotFound req.fromWalletId),
      { db with logs := db.logs ++ [failedLog], nextId := db.nextId + 1 }, events⟩
  | some fromW =>
    match toWallet with
    | none =>
      let failedLog := { pendingLog with
        status := TransactionStatus.FAILED
        errorMessage := some ("Destination wallet not found: " ++ toString req.toWalletId) }
      ⟨.error (.walletNotFound req.toWalletId),
        { db with logs := db.logs ++ [failedLog], nextId := db.nextId + 1 }, events⟩
    | some toW =>
      if fracLt (jsWalletBalance fromW.balance) (toDouble req.amount) then
        let message := "Insufficient funds. Available: " ++ toString fromW.balance ++
          ", Required: " ++ fracText req.amount
        let failedLog := { pendingLog with
          status := TransactionStatus.FAILED
          errorMessage := some message }
        ⟨.error (.insufficientFunds message),
          { db with logs := db.logs ++ [failedLog], nextId := db.nextId + 1 }, events⟩
      else
        let fromBalanceAfter := jsBalanceAfterSub fromW.balance (toDouble req.amount)
        let toBalanceAfter := jsBalanceAfterAdd toW.balance (toDouble req.amount)
        let debitRow : LedgerRow :=
          { walletId := req.fromWalletId
            transactionLogId := pendingLog.id
            entryType := .DEBIT
            amount := pgAmountCents req.amount
            balanceBefore := fromW.balance
            balanceAfter := fromBalanceAfter
            description := "Transfer to wallet " ++ toString req.toWalletId }
        let creditRow : LedgerRow :=
          { walletId := req.toWalletId
            transactionLogId := pendingLog.id
            entryType := .CREDIT
            amount := pgAmountCents req.amount
            balanceBefore := toW.balance
            balanceAfter := toBalanceAfter
            description := "Transfer from wallet " ++ toString req.fromWalletId }
        let completedLog := { pendingLog with status := TransactionStatus.COMPLETED }
        ⟨.ok { success := true
               transactionLog := completedLog
               message := "Transfer completed successfully"
               isIdempotent := none },
          { wallets :=
              setWalletBalance (setWalletBalance db.wallets req.fromWalletId fromBalanceAfter)
                req.toWalletId toBalanceAfter
            logs := db.logs ++ [completedLog]
            ledgers := db.ledgers ++ [debitRow, creditRow]
            nextId := db.nextId + 1 }, events⟩

/-- `executeTransfer` of `transfer.service.ts` (module-level function):
synchronous validation, idempotency fast path, then the transaction. -/
def executeTransfer (db : DB) (req : TransferRequest) : TransferOutcome :=
  if fracNonpos (toDouble req.amount) then
    ⟨.error (.invalidTransfer "Transfer amount must be greater than zero"), db, []⟩
  else if req.fromWalletId = req.toWalletId then
    ⟨.error (.invalidTransfer "Cannot transfer to the same wallet"), db, []⟩
  else
    match findLogByKey db.logs req.idempotencyKey with
    | some existing =>
      ⟨.ok (replayResult existing
        (if existing.status = TransactionStatus.COMPLETED then
          "Transfer already completed (idempotent response)"
         else "Transfer previously " ++ statusText existing.status)), db, []⟩
    | none => runTransferTx db req

/-! ### Cached transfer service (`src/modules/wallet/wallet.service.ts`)

The NestJS `TransferService` variant differs from the module-level engine: it
consults a Redis response cache before the database fast path, it locks and
resolves the wallets *before* inserting the PENDING log, and its success
response omits the `isIdempotent` flag.  The cache is a list of
key–response pairs; TTL is not modelled.
-/

/-- The `data` payload of the cached service response. -/
structure TransferResponseData where
  transactionId : ℕ
  idempotencyKey : String
  fromWalletId : WalletId
  toWalletId : WalletId
  amount : ℤ
  status : TransactionStatus
  createdAt : ℕ
deriving DecidableEq, Repr

/-- The `TransferResult extends ApiResponse<TransferResponseData>` response of
the cached service; the optional fields are `Option`s. -/
structure WSTransferResult where
  success : Bool
  message : String
  data : Option TransferResponseData
  isIdempotent : Option Bool
deriving DecidableEq, Repr

/-- State of the cached service: the database plus the Redis key space. -/
structure WSState where
  db : DB
  cache : List (String × WSTransferResult)
deriving DecidableEq, Repr

structure WSOutcome where
  result : Except TransferError WSTransferResult
  state : WSState
  events : List DBEvent
deriving DecidableEq, Repr

/-- `redis.get(key)`. -/
def cacheGet : List (String × WSTransferResult) → String → Option WSTransferResult
  | [], _ => none
  | (k, v) :: rest, key => if k = key then some v else cacheGet rest key

/-- `redis.set` with a 24 hour expiry; the expiry is not modelled. -/
def cacheSet (c : List (String × WSTransferResult)) (key : String) (v : WSTransferResult) :
    List (String × WSTransferResult) :=
  (key, v) :: c

/-- The response `data` built from a `TransactionLog` row. -/
def responseDataOf (l : TransactionLogRow) : TransferResponseData :=
  { transactionId := l.id
    idempotencyKey := l.idempotencyKey
    fromWalletId := l.fromWalletId
    toWalletId := l.toWalletId
    amount := l.amount
    status := l.status
    createdAt := l.createdAt }

/-- The replay response of the cached service built from an existing log
row (database fast path). -/
def wsReplayResult (existing : TransactionLogRow) : WSTransferResult :=
  { success := decide (existing.status = TransactionStatus.COMPLETED)
    message :=
      if existing.status = TransactionStatus.COMPLETED then
        "Transfer already completed (idempotent response)"
      else "Transfer previously " ++ statusText existing.status
    data := some (responseDataOf existing)
    isIdempotent := some true }

/-- `TransferService.executeTransfer` of `wallet.service.ts`.  Note two
divergences from the module-level engine: a missing wallet is reported
*before* the PENDING log exists (the transaction rolls back, so no FAILED row
is committed), and the first-time success response carries no
`isIdempotent` field (and is what gets cached). -/
def executeTransferWS (st : WSState) (req : TransferRequest) : WSOutcome :=
  if req.idempotencyKey = "" then
    ⟨.error (.idempotencyKeyNotFound "Idempotency-Key header is required for transfers."),
      st, []⟩
  else if fracNonpos (toDouble req.amount) then
    ⟨.error (.invalidTransfer "Transfer amount must be greater than zero"), st, []⟩
  else if req.fromWalletId = req.toWalletId then
    ⟨.error (.invalidTransfer "Cannot transfer to the same wallet"), st, []⟩
  else
    let cacheKey := "idempotency:" ++ req.idempotencyKey
    match cacheGet st.cache cacheKey with
    | some cached => ⟨.ok cached, st, []⟩
    | none =>
      match findLogByKey st.db.logs req.idempotencyKey with
      | some existing =>
        let result : WSTransferResult :=
          { success := decide (existing.status = TransactionStatus.COMPLETED)
            message :=
              if existing.status = TransactionStatus.COMPLETED then
                "Transfer already completed (idempotent response)"
              else "Transfer previously " ++ statusText existing.status
            data := some (responseDataOf existing)
            isIdempotent := some true }
        ⟨.ok result, { st with cache := cacheSet st.cache cacheKey result }, []⟩
      | none =>
        let firstId :=
          if req.fromWalletId < req.toWalletId then req.fromWalletId else req.toWalletId
        let secondId :=
          if req.fromWalletId < req.toWalletId then req.toWalletId else req.fromWalletId
        let events := [DBEvent.lockWallet firstId, DBEvent.lockWallet secondId]
        let firstWallet := findWallet st.db.wallets firstId
        let secondWallet := findWallet st.db.wallets secondId
        let fromWallet := if req.fromWalletId = firstId then firstWallet else secondWallet
        let toWallet := if req.toWalletId = firstId then firstWallet else secondWallet
        match fromWallet with
        | none =>
          -- `throw new WalletNotFoundError(fromWalletId)` before the PENDING
          -- log is created: the transaction rolls back, nothing is committed
          ⟨.error (.walletNotFound req.fromWalletId), st, events⟩
        | some fromW =>
          match toWallet with
          | none => ⟨.error (.walletNotFound req.toWalletId), st, events⟩
          | some toW =>
            let pendingLog : TransactionLogRow :=
              { id := st.db.nextId
                idempotencyKey := req.idempotencyKey
                fromWalletId := req.fromWalletId
                toWalletId := req.toWalletId
                amount := pgAmountCents req.amount
                status := .PENDING
                errorMessage := none
                createdAt := st.db.nextId }
            if fracLt (jsWalletBalance fromW.balance) (toDouble req.amount) then
              let message := "Insufficient funds. Available: " ++ toString fromW.balance ++
                ", Required: " ++ fracText req.amount
              let failedLog := { pendingLog with
                status := TransactionStatus.FAILED
                errorMessage := some message }
              ⟨.error (.insufficientFunds message),
                { st with db :=
                  { st.db with logs := st.db.logs ++ [failedLog], nextId := st.db.nextId + 1 } },
                events⟩
            else
              let fromBalanceAfter := jsBalanceAfterSub fromW.balance (toDouble req.amount)
              let toBalanceAfter := jsBalanceAfterAdd toW.balance (toDouble req.amount)
              let debitRow : LedgerRow :=
                { walletId := req.fromWalletId
                  transactionLogId := pendingLog.id
                  entryType := .DEBIT
                  amount := pgAmountCents req.amount
                  balanceBefore := fromW.balance
                  balanceAfter := fromBalanceAfter
                  description := "Transfer to wallet " ++ toString req.toWalletId }
              let creditRow : LedgerRow :=
                { walletId := req.toWalletId
                  transactionLogId := pendingLog.id
                  entryType := .CREDIT
                  amount := pgAmountCents req.amount
                  balanceBefore := toW.balance
                  balanceAfter := toBalanceAfter
                  description := "Transfer from wallet " ++ toString req.fromWalletId }
              let completedLog := { pendingLog with status := TransactionStatus.COMPLETED }
              let result : WSTransferResult :=
                { success := true
                  message := "Transfer completed successfully"
                  data := some (responseDataOf completedLog)
                  isIdempotent := none }
              ⟨.ok result,
                { db :=
                    { wallets :=
                        setWalletBalance
                          (setWalletBalance st.db.wallets req.fromWalletId fromBalanceAfter)
                          req.toWalletId toBalanceAfter
                      logs := st.db.logs ++ [completedLog]
                      ledgers := st.db.ledgers ++ [debitRow, creditRow]
                      nextId := st.db.nextId + 1 }
                  cache := cacheSet st.cache cacheKey result },
                events⟩

/-! ### Interest engine state
(`src/modules/interest/services/interest.service.ts`)

Account balances are the `DECIMAL(20, 8)` strings, modelled as rationals.
`calculateDailyInterest` issues its two writes — `InterestLog.create` and
`account.update` — *without* a transaction handle, so each one commits on its
own; the outcome therefore carries the list of successively committed states.
The unique-violation catch of the source cannot fire in this one-request
model: the `(accountId, calculationDate)` pair was found absent immediately
before the insert.
-/

structure AccountRow where
  id : String
  balance : ℚ
deriving Repr

structure InterestLogRow where
  accountId : String
  calculationDate : CivilDate
  principalBalance : ℚ
  interestAmount : ℚ
  annualRate : ℚ
  daysInYear : ℕ
  newBalance : ℚ
deriving Repr

/-- The committed interest-side database state. -/
structure IDB where
  accounts : List AccountRow
  interestLogs : List InterestLogRow
deriving Repr

/-- `InterestLog.findOne({ where: { accountId, calculationDate } })`. -/
def findInterestLog : List InterestLogRow → String → CivilDate → Option InterestLogRow
  | [], _, _ => none
  | l :: ls, aid, d =>
    if l.accountId = aid ∧ l.calculationDate = d then some l else findInterestLog ls aid d

/-- `Account.findByPk(accountId)`. -/
def findAccount : List AccountRow → String → Option AccountRow
  | [], _ => none
  | a :: as_, aid => if a.id = aid then some a else findAccount as_ aid

/-- `account.update({ balance })`. -/
def setAccountBalance (accounts : List AccountRow) (aid : String) (b : ℚ) : List AccountRow :=
  accounts.map fun a => if a.id = aid then { a with balance := b } else a

/-- The `DailyInterestResult` interface of the source. -/
structure DailyInterestResult where
  accountId : String
  calculationDate : CivilDate
  principalBalance : ℚ
  interestAmount : ℚ
  annualRate : ℚ
  dailyRate : ℚ
  daysInYear : ℕ
  newBalance : ℚ
  isNew : Bool
deriving Repr

inductive InterestError
  | accountNotFound (accountId : String)
deriving DecidableEq, Repr

/-- Outcome of one `calculateDailyInterest` call: the returned result, the
states committed by the call in order (one per auto-committed write), and the
final state. -/
structure InterestOutcome where
  result : Except InterestError DailyInterestResult
  commits : List IDB
  db : IDB
deriving Repr

/-- `calculateDailyInterest(accountId, date)`, with the process time zone as
an explicit parameter.  `calculationDate` is the UTC calendar date taken
from `toISOString`; `year = date.getFullYear()` is the *local* civil
year. -/
def calculateDailyInterest (tzOffsetMin : ℤ) (db : IDB) (accountId : String) (ms : ℤ) :
    InterestOutcome :=
  let calculationDate := utcDateOfMs ms
  let year := localYearOfMs tzOffsetMin ms
  match findInterestLog db.interestLogs accountId calculationDate with
  | some existingLog =>
    ⟨.ok { accountId := existingLog.accountId
           calculationDate := existingLog.calculationDate
           principalBalance := existingLog.principalBalance
           interestAmount := existingLog.interestAmount
           annualRate := existingLog.annualRate
           dailyRate := decToFixed 8 (decDiv existingLog.annualRate existingLog.daysInYear)
           daysInYear := existingLog.daysInYear
           newBalance := existingLog.newBalance
           isNew := false }, [], db⟩
  | none =>
    match findAccount db.accounts accountId with
    | none => ⟨.error (.accountNotFound accountId), [], db⟩
    | some account =>
      let principal := account.balance
      let daysInYear := getDaysInYear year
      let dailyRate := calculateDailyRate year
      let interest := calculateInterest principal dailyRate
      let newBalance := calculateNewBalance principal interest
      let logRow : InterestLogRow :=
        { accountId := accountId
          calculationDate := calculationDate
          principalBalance := decToFixed 8 principal
          interestAmount := decToFixed 8 interest
          annualRate := decToFixed 6 ANNUAL_INTEREST_RATE
          daysInYear := daysInYear
          newBalance := decToFixed 8 newBalance }
      -- `InterestLog.create({...})`: no transaction handle, commits alone
      let dbAfterInsert : IDB := { db with interestLogs := db.interestLogs ++ [logRow] }
      -- `account.update({...})`: a second, separately committed statement
      let dbAfterUpdate : IDB :=
        { dbAfterInsert with
          accounts := setAccountBalance dbAfterInsert.accounts accountId (decToFixed 8 newBalance) }
      ⟨.ok { accountId := accountId
             calculationDate := calculationDate
             principalBalance := decToFixed 8 principal
             interestAmount := decToFixed 8 interest
             annualRate := decToFixed 6 ANNUAL_INTEREST_RATE
             dailyRate := decToFixed 8 dailyRate
             daysInYear := daysInYear
             newBalance := decToFixed 8 newBalance
             isNew := true }, [dbAfterInsert, dbAfterUpdate], dbAfterUpdate⟩

/-! ### Branch shapes of `executeTransfer`

The committed state produced by each branch of the state machine, as plain
definitions, with a lemma enumerating which shapes are possible.
-/

/-- The log row inserted as PENDING and committed as FAILED. -/
def failedLogOf (db : DB) (req : TransferRequest) (msg : String) : TransactionLogRow :=
  { id := db.nextId
    idempotencyKey := req.idempotencyKey
    fromWalletId := req.fromWalletId
    toWalletId := req.toWalletId
    amount := pgAmountCents req.amount
    status := .FAILED
    errorMessage := some msg
    createdAt := db.nextId }

/-- The log row inserted as PENDING and committed as COMPLETED. -/
def completedLogOf (db : DB) (req : TransferRequest) : TransactionLogRow :=
  { id := db.nextId
    idempotencyKey := req.idempotencyKey
    fromWalletId := req.fromWalletId
    toWalletId := req.toWalletId
    amount := pgAmountCents req.amount
    status := .COMPLETED
    errorMessage := none
    createdAt := db.nextId }

/-- Commit of a failure branch: only the FAILED log row is added. -/
def failCommit (db : DB) (flog : TransactionLogRow) : DB :=
  { db with logs := db.logs ++ [flog], nextId := db.nextId + 1 }

def debitRowOf (db : DB) (req : TransferRequest) (fromW : WalletRow) : LedgerRow :=
  { walletId := req.fromWalletId
    transactionLogId := db.nextId
    entryType := .DEBIT
    amount := pgAmountCents req.amount
    balanceBefore := fromW.balance
    balanceAfter := jsBalanceAfterSub fromW.balance (toDouble req.amount)
    description := "Transfer to wallet " ++ toString req.toWalletId }

def creditRowOf (db : DB) (req : TransferRequest) (toW : WalletRow) : LedgerRow :=
  { walletId := req.toWalletId
    transactionLogId := db.nextId
    entryType := .CREDIT
    amount := pgAmountCents req.amount
    balanceBefore := toW.balance
    balanceAfter := jsBalanceAfterAdd toW.balance (toDouble req.amount)
    description := "Transfer from wallet " ++ toString req.fromWalletId }

/-- Commit of the success branch: both balances moved, the ledger pair
appended, the log committed as COMPLETED. -/
def successCommit (db : DB) (req : TransferRequest) (fromW toW : WalletRow) : DB :=
  { wallets :=
      setWalletBalance (setWalletBalance db.wallets req.fromWalletId
          (jsBalanceAfterSub fromW.balance (toDouble req.amount)))
        req.toWalletId (jsBalanceAfterAdd toW.balance (toDouble req.amount))
    logs := db.logs ++ [completedLogOf db req]
    ledgers := db.ledgers ++ [debitRowOf db req fromW, creditRowOf db req toW]
    nextId := db.nextId + 1 }

/-! ### Invariants over reachable committed states -/

/-- Specification invariant I2, per COMPLETED log: exactly one DEBIT on the
source wallet and one CREDIT on the destination, both over the amount of the
log, with exact before/after arithmetic. -/
def goodCompleted (ledgers : List LedgerRow) (l : TransactionLogRow) : Prop :=
  ∃ d c : LedgerRow,
    ledgerRowsFor ledgers l.id = [d, c] ∧
    d.entryType = .DEBIT ∧ d.walletId = l.fromWalletId ∧ d.amount = l.amount ∧
    d.balanceAfter = d.balanceBefore - l.amount ∧
    c.entryType = .CREDIT ∧ c.walletId = l.toWalletId ∧ c.amount = l.amount ∧
    c.balanceAfter = c.balanceBefore + l.amount

/-- COMPLETED logs own exactly their debit/credit pair; PENDING and FAILED
logs own no ledger rows. -/
def ledgerInvariant (db : DB) : Prop :=
  ∀ l ∈ db.logs,
    (l.status = .COMPLETED → goodCompleted db.ledgers l) ∧
    (l.status ≠ .COMPLETED → ledgerRowsFor db.ledgers l.id = [])

/-- Bookkeeping: every row id issued so far is below the id counter. -/
def idsBounded (db : DB) : Prop :=
  (∀ l ∈ db.logs, l.id < db.nextId) ∧ (∀ e ∈ db.ledgers, e.transactionLogId < db.nextId)

/-- Wallet balances are explained by the ledger, relative to an initial
state, and the total is conserved. -/
def balanceInvariant (db₀ db : DB) : Prop :=
  walletIds db.wallets = walletIds db₀.wallets ∧
  (∀ w ∈ db.wallets, ∃ w₀, w₀ ∈ db₀.wallets ∧ w₀.id = w.id ∧
    w.balance = w₀.balance + creditSum db.ledgers w.id - debitSum db.ledgers w.id) ∧
  totalBalance db.wallets = totalBalance db₀.wallets

/-- The float-and-rounding pipeline of one request agrees with exact cent
arithmetic over the committed amount on the two wallets it would touch: the
computed after-balances move by exactly the `DECIMAL(20, 2)` cents stored in
the log and ledger rows.  This holds for ordinary integer-cent amounts on
balances within the exactly-representable range (see the witnesses) and
fails on fractional-cent amounts (see the counterexamples of C4 and C5). -/
def exactArithB (db : DB) (req : TransferRequest) : Bool :=
  match findWallet db.wallets req.fromWalletId, findWallet db.wallets req.toWalletId with
  | some fromW, some toW =>
    decide (jsBalanceAfterSub fromW.balance (toDouble req.amount) =
        fromW.balance - pgAmountCents req.amount) &&
    decide (jsBalanceAfterAdd toW.balance (toDouble req.amount) =
        toW.balance + pgAmountCents req.amount)
  | _, _ => true

/-- States reachable from `db₀` by transfer requests on each of which the
float pipeline computes exact cent arithmetic. -/
inductive ExactReachable (db₀ : DB) : DB → Prop
  | init : ExactReachable db₀ db₀
  | step (db : DB) (req : TransferRequest) (hex : exactArithB db req = true) :
      ExactReachable db₀ db → ExactReachable db₀ (executeTransfer db req).db

/-! ### Shapes and reduction lemmas for the interest engine -/

/-- The `InterestLog` row written by a first-time calculation. -/
def interestLogRowOf (aid : String) (date : CivilDate) (principal : ℚ) (year : ℤ) :
    InterestLogRow :=
  { accountId := aid
    calculationDate := date
    principalBalance := decToFixed 8 principal
    interestAmount := decToFixed 8 (calculateInterest principal (calculateDailyRate year))
    annualRate := decToFixed 6 ANNUAL_INTEREST_RATE
    daysInYear := getDaysInYear year
    newBalance :=
      decToFixed 8 (calculateNewBalance principal
        (calculateInterest principal (calculateDailyRate year))) }

/-- State committed by the bare `InterestLog.create` call. -/
def interestInsertCommit (db : IDB) (row : InterestLogRow) : IDB :=
  { db with interestLogs := db.interestLogs ++ [row] }

/-- State committed by the bare `account.update` call. -/
def interestUpdateCommit (db : IDB) (aid : String) (b : ℚ) : IDB :=
  { db with accounts := setAccountBalance db.accounts aid b }

/-- The result returned by a first-time calculation. -/
def interestResultOf (aid : String) (date : CivilDate) (principal : ℚ) (year : ℤ) :
    DailyInterestResult :=
  { accountId := aid
    calculationDate := date
    principalBalance := decToFixed 8 principal
    interestAmount := decToFixed 8 (calculateInterest principal (calculateDailyRate year))
    annualRate := decToFixed 6 ANNUAL_INTEREST_RATE
    dailyRate := decToFixed 8 (calculateDailyRate year)
    daysInYear := getDaysInYear year
    newBalance :=
      decToFixed 8 (calculateNewBalance principal
        (calculateInterest principal (calculateDailyRate year)))
    isNew := true }

/-! #### Evaluation lemmas for the decimal model -/

theorem roundHalfUpAway_of_nonneg (y : ℚ) (h : 0 ≤ y) :
    roundHalfUpAway y = ⌊y + 1 / 2⌋ := by
  unfold roundHalfUpAway
  rw [if_pos h]

theorem qExp_of_lt_one (x : ℚ) (c : ℤ) (d : ℕ) (h1 : ¬ 1 ≤ |x|)
    (hc : ⌈|x|⁻¹⌉ = c) (hd : natDigits (Int.toNat (c - 1)) = d) :
    qExp x = -d := by
  unfold qExp
  rw [if_neg h1, hc, hd]

theorem qExp_of_one_le (x : ℚ) (m : ℤ) (d : ℕ) (h1 : 1 ≤ |x|)
    (hm : ⌊|x|⌋ = m) (hd : natDigits (Int.toNat m) = d) :
    qExp x = d - 1 := by
  unfold qExp
  rw [if_pos h1, hm, hd]

theorem roundSig_eval (p : ℕ) (x : ℚ) (e n : ℤ)
    (hx : x ≠ 0) (he : qExp x = e)
    (hn : roundHalfUpAway (x * 10 ^ ((p : ℤ) - 1 - e)) = n) :
    roundSig p x = (n : ℚ) / 10 ^ ((p : ℤ) - 1 - e) := by
  unfold roundSig roundAtScale
  rw [if_neg hx, he, hn]

theorem decToFixed_eval (s : Nat) (x : ℚ) (n : ℤ)
    (hn : roundHalfUpAway (x * 10 ^ (s : ℤ)) = n) :
    decToFixed s x = (n : ℚ) / 10 ^ (s : ℤ) := by
  unfold decToFixed roundAtScale
  rw [hn]

theorem dailyRate_2023 : calculateDailyRate 2023 = 75342465753424657534 / 10 ^ 23 := by
  have hx : ANNUAL_INTEREST_RATE / ((getDaysInYear 2023 : ℕ) : ℚ) = 11 / 14600 := by
    norm_num [ANNUAL_INTEREST_RATE, getDaysInYear, isLeapYear]
  have he : qExp ((11 : ℚ) / 14600) = -4 := by
    apply qExp_of_lt_one _ 1328 4
    · rw [abs_of_pos (by norm_num)]; norm_num
    · rw [abs_of_pos (by norm_num)]
      rw [show ((11 : ℚ) / 14600)⁻¹ = 14600 / 11 by norm_num]
      rw [Int.ceil_eq_iff]
      norm_num
    · decide
  have hn : roundHalfUpAway ((11 : ℚ) / 14600 * 10 ^ ((20 : ℤ) - 1 - (-4))) =
      75342465753424657534 := by
    rw [roundHalfUpAway_of_nonneg _ (by positivity)]
    norm_num
  unfold calculateDailyRate decDiv
  rw [hx, roundSig_eval 20 _ (-4) 75342465753424657534 (by norm_num) he hn]
  norm_num

theorem interest_10000_2023 :
    calculateInterest 10000 (calculateDailyRate 2023) = 75342465753424657534 / 10 ^ 19 := by
  rw [dailyRate_2023]
  unfold calculateInterest decMul
  have hx : (10000 : ℚ) * (75342465753424657534 / 10 ^ 23) =
      75342465753424657534 / 10 ^ 19 := by norm_num
  rw [hx]
  have he : qExp ((75342465753424657534 : ℚ) / 10 ^ 19) = 0 := by
    have := qExp_of_one_le ((75342465753424657534 : ℚ) / 10 ^ 19) 7 1
      (by rw [abs_of_pos (by norm_num)]; norm_num)
      (by rw [abs_of_pos (by norm_num)]; norm_num [Int.floor_eq_iff])
      (by decide)
    simpa using this
  have hn : roundHalfUpAway ((75342465753424657534 : ℚ) / 10 ^ 19 * 10 ^ ((20 : ℤ) - 1 - 0)) =
      75342465753424657534 := by
    rw [roundHalfUpAway_of_nonneg _ (by positivity)]
    norm_num
  rw [roundSig_eval 20 _ 0 75342465753424657534 (by norm_num) he hn]
  norm_num

theorem interest_10000_2023_fixed8 :
    decToFixed 8 (calculateInterest 10000 (calculateDailyRate 2023)) = 753424658 / 10 ^ 8 := by
  rw [interest_10000_2023]
  rw [decToFixed_eval 8 _ 753424658]
  · norm_num
  · rw [roundHalfUpAway_of_nonneg _ (by positivity)]
    norm_num

theorem newBalance_10000_2023 :
    calculateNewBalance 10000 (calculateInterest 10000 (calculateDailyRate 2023)) =
      10007534246575342466 / 10 ^ 15 := by
  rw [interest_10000_2023]
  unfold calculateNewBalance decAdd
  have hx : (10000 : ℚ) + 75342465753424657534 / 10 ^ 19 =
      100075342465753424657534 / 10 ^ 19 := by norm_num
  rw [hx]
  have he : qExp ((100075342465753424657534 : ℚ) / 10 ^ 19) = 4 := by
    have := qExp_of_one_le ((100075342465753424657534 : ℚ) / 10 ^ 19) 10007 5
      (by rw [abs_of_pos (by norm_num)]; norm_num)
      (by rw [abs_of_pos (by norm_num)]; norm_num [Int.floor_eq_iff])
      (by decide)
    simpa using this
  have hn : roundHalfUpAway
      ((100075342465753424657534 : ℚ) / 10 ^ 19 * 10 ^ ((20 : ℤ) - 1 - 4)) =
      10007534246575342466 := by
    rw [roundHalfUpAway_of_nonneg _ (by positivity)]
    norm_num
  rw [roundSig_eval 20 _ 4 10007534246575342466 (by norm_num) he hn]
  norm_num

theorem newBalance_10000_2023_fixed8 :
    decToFixed 8 (calculateNewBalance 10000 (calculateInterest 10000 (calculateDailyRate 2023))) =
      1000753424658 / 10 ^ 8 := by
  rw [newBalance_10000_2023]
  rw [decToFixed_eval 8 _ 1000753424658]
  · norm_num
  · rw [roundHalfUpAway_of_nonneg _ (by positivity)]
    norm_num

theorem annualRate_fixed6 : decToFixed 6 ANNUAL_INTEREST_RATE = 275000 / 10 ^ 6 := by
  rw [decToFixed_eval 6 _ 275000]
  · norm_num [ANNUAL_INTEREST_RATE]
  · rw [roundHalfUpAway_of_nonneg _ (by norm_num [ANNUAL_INTEREST_RATE])]
    norm_num [ANNUAL_INTEREST_RATE]

/-! ### List-level helper lemmas -/

theorem ledgerRowsFor_append (xs ys : List LedgerRow) (i : ℕ) :
    ledgerRowsFor (xs ++ ys) i = ledgerRowsFor xs i ++ ledgerRowsFor ys i := by
  induction xs with
  | nil => rfl
  | cons e es ih =>
    by_cases h : e.transactionLogId = i <;>
      simp [ledgerRowsFor, h, ih]

theorem ledgerRowsFor_eq_nil (es : List LedgerRow) (i : ℕ)
    (h : ∀ e ∈ es, e.transactionLogId ≠ i) : ledgerRowsFor es i = [] := by
  induction es with
  | nil => rfl
  | cons e es ih =>
    rw [ledgerRowsFor, if_neg (h e (by simp))]
    exact ih fun e' he' => h e' (by simp [he'])

theorem creditSum_append (xs ys : List LedgerRow) (wid : WalletId) :
    creditSum (xs ++ ys) wid = creditSum xs wid + creditSum ys wid := by
  induction xs with
  | nil => simp [creditSum]
  | cons e es ih => simp [creditSum, ih]; ring

theorem debitSum_append (xs ys : List LedgerRow) (wid : WalletId) :
    debitSum (xs ++ ys) wid = debitSum xs wid + debitSum ys wid := by
  induction xs with
  | nil => simp [debitSum]
  | cons e es ih => simp [debitSum, ih]; ring

theorem findWallet_mem_id (ws : List WalletRow) (wid : WalletId) (w : WalletRow)
    (h : findWallet ws wid = some w) : w ∈ ws ∧ w.id = wid := by
  induction ws with
  | nil => simp [findWallet] at h
  | cons v vs ih =>
    rw [findWallet] at h
    by_cases hv : v.id = wid
    · rw [if_pos hv] at h
      obtain rfl : v = w := by simpa using h
      exact ⟨by simp, hv⟩
    · rw [if_neg hv] at h
      obtain ⟨hmem, hid⟩ := ih h
      exact ⟨by simp [hmem], hid⟩

theorem findWallet_of_mem (ws : List WalletRow) (w : WalletRow)
    (hnd : (walletIds ws).Nodup) (hmem : w ∈ ws) : findWallet ws w.id = some w := by
  induction ws with
  | nil => simp at hmem
  | cons v vs ih =>
    rw [walletIds, List.map_cons, List.nodup_cons] at hnd
    rcases List.mem_cons.mp hmem with rfl | hmem'
    · rw [findWallet, if_pos rfl]
    · rw [findWallet]
      by_cases hv : v.id = w.id
      · exact absurd (hv ▸ List.mem_map_of_mem (·.id) hmem') hnd.1
      · rw [if_neg hv]
        exact ih hnd.2 hmem'

theorem walletIds_setWalletBalance (ws : List WalletRow) (wid : WalletId) (b : ℤ) :
    walletIds (setWalletBalance ws wid b) = walletIds ws := by
  unfold walletIds setWalletBalance
  rw [List.map_map]
  apply List.map_congr_left
  intro w _
  by_cases hv : w.id = wid <;> simp [hv]

theorem setWalletBalance_of_not_mem (ws : List WalletRow) (wid : WalletId) (b : ℤ)
    (h : wid ∉ walletIds ws) : setWalletBalance ws wid b = ws := by
  induction ws with
  | nil => rfl
  | cons v vs ih =>
    rw [walletIds, List.map_cons, List.mem_cons, not_or] at h
    rw [setWalletBalance, List.map_cons, if_neg (fun hv => h.1 hv.symm)]
    show v :: setWalletBalance vs wid b = v :: vs
    rw [ih h.2]

theorem findWallet_setWalletBalance_ne (ws : List WalletRow) (wid j : WalletId) (b : ℤ)
    (h : j ≠ wid) : findWallet (setWalletBalance ws wid b) j = findWallet ws j := by
  induction ws with
  | nil => rfl
  | cons v vs ih =>
    rw [setWalletBalance, List.map_cons]
    by_cases hv : v.id = wid
    · have hvj : ¬ v.id = j := fun hj => h (by rw [← hj]; exact hv)
      rw [if_pos hv]
      show (if ({ v with balance := b } : WalletRow).id = j then _ else _) = _
      rw [show ({ v with balance := b } : WalletRow).id = v.id from rfl, if_neg hvj,
        findWallet, if_neg hvj]
      exact ih
    · rw [if_neg hv]
      show (if v.id = j then _ else _) = _
      rw [findWallet]
      by_cases hj : v.id = j
      · rw [if_pos hj, if_pos hj]
      · rw [if_neg hj, if_neg hj]
        exact ih

theorem totalBalance_setWalletBalance (ws : List WalletRow) (wid : WalletId) (b : ℤ)
    (w : WalletRow) (hnd : (walletIds ws).Nodup) (h : findWallet ws wid = some w) :
    totalBalance (setWalletBalance ws wid b) = totalBalance ws - w.balance + b := by
  induction ws with
  | nil => simp [findWallet] at h
  | cons v vs ih =>
    rw [walletIds, List.map_cons, List.nodup_cons] at hnd
    rw [findWallet] at h
    rw [setWalletBalance, List.map_cons]
    by_cases hv : v.id = wid
    · rw [if_pos hv] at h ⊢
      obtain rfl : v = w := by simpa using h
      have hrest : setWalletBalance vs wid b = vs := by
        apply setWalletBalance_of_not_mem
        rw [← hv]
        exact hnd.1
      calc totalBalance ({ v with balance := b } :: setWalletBalance vs wid b)
          = b + totalBalance (setWalletBalance vs wid b) := rfl
        _ = b + totalBalance vs := by rw [hrest]
        _ = totalBalance (v :: vs) - v.balance + b := by
            rw [show totalBalance (v :: vs) = v.balance + totalBalance vs from rfl]; ring
    · rw [if_neg hv] at h ⊢
      calc totalBalance (v :: setWalletBalance vs wid b)
          = v.balance + totalBalance (setWalletBalance vs wid b) := rfl
        _ = v.balance + (totalBalance vs - w.balance + b) := by rw [ih hnd.2 h]
        _ = totalBalance (v :: vs) - w.balance + b := by
            rw [show totalBalance (v :: vs) = v.balance + totalBalance vs from rfl]; ring

theorem mem_setWalletBalance (ws : List WalletRow) (wid : WalletId) (b : ℤ)
    (w' : WalletRow) (h : w' ∈ setWalletBalance ws wid b) :
    ∃ w ∈ ws, w' = if w.id = wid then { w with balance := b } else w := by
  obtain ⟨w, hw, rfl⟩ := List.mem_map.mp h
  exact ⟨w, hw, rfl⟩

theorem resolve_fromWallet (ws : List WalletRow) (f t : WalletId) (h : f ≠ t) :
    (if f = (if f < t then f else t)
     then findWallet ws (if f < t then f else t)
     else findWallet ws (if f < t then t else f)) = findWallet ws f := by
  by_cases hlt : f < t
  · rw [if_pos hlt, if_pos hlt, if_pos rfl]
  · rw [if_neg hlt, if_neg hlt, if_neg h]

theorem resolve_toWallet (ws : List WalletRow) (f t : WalletId) (h : f ≠ t) :
    (if t = (if f < t then f else t)
     then findWallet ws (if f < t then f else t)
     else findWallet ws (if f < t then t else f)) = findWallet ws t := by
  by_cases hlt : f < t
  · rw [if_pos hlt, if_pos hlt, if_neg (fun ht => h ht.symm)]
  · rw [if_neg hlt, if_neg hlt, if_pos rfl]

/-- On the fast path (an existing row for the key), `executeTransfer` returns
the replay outcome and leaves the state untouched. -/
theorem executeTransfer_eq_replay (db : DB) (req : TransferRequest)
    (existing : TransactionLogRow)
    (h1 : ¬ fracNonpos (toDouble req.amount)) (h2 : ¬ req.fromWalletId = req.toWalletId)
    (hlog : findLogByKey db.logs req.idempotencyKey = some existing) :
    executeTransfer db req =
      ⟨.ok (replayResult existing
        (if existing.status = TransactionStatus.COMPLETED then
          "Transfer already completed (idempotent response)"
         else "Transfer previously " ++ statusText existing.status)), db, []⟩ := by
  unfold executeTransfer
  rw [if_neg h1, if_neg h2, hlog]

/-- On the slow path (no row for the key), `executeTransfer` runs the state
machine transaction. -/
theorem executeTransfer_eq_runTx (db : DB) (req : TransferRequest)
    (h1 : ¬ fracNonpos (toDouble req.amount)) (h2 : ¬ req.fromWalletId = req.toWalletId)
    (hlog : findLogByKey db.logs req.idempotencyKey = none) :
    executeTransfer db req = runTransferTx db req := by
  unfold executeTransfer
  rw [if_neg h1, if_neg h2, hlog]

/-- The transaction body commits one of three state shapes: a FAILED log for
a missing wallet, a FAILED log for insufficient funds, or the full success
commit. -/
theorem runTransferTx_db_cases (db : DB) (req : TransferRequest)
    (h2 : ¬ req.fromWalletId = req.toWalletId) :
    (∃ msg, (runTransferTx db req).db = failCommit db (failedLogOf db req msg)) ∨
    (∃ fromW toW,
      findWallet db.wallets req.fromWalletId = some fromW ∧
      findWallet db.wallets req.toWalletId = some toW ∧
      ¬ fracLt (jsWalletBalance fromW.balance) (toDouble req.amount) ∧
      (runTransferTx db req).db = successCommit db req fromW toW) := by
  simp only [runTransferTx]
  rw [resolve_fromWallet db.wallets _ _ h2, resolve_toWallet db.wallets _ _ h2]
  cases hfrom : findWallet db.wallets req.fromWalletId with
  | none =>
    left
    exact ⟨"Source wallet not found: " ++ toString req.fromWalletId, rfl⟩
  | some fromW =>
    dsimp only
    cases hto : findWallet db.wallets req.toWalletId with
    | none =>
      left
      exact ⟨"Destination wallet not found: " ++ toString req.toWalletId, rfl⟩
    | some toW =>
      dsimp only
      by_cases hbal : fracLt (jsWalletBalance fromW.balance) (toDouble req.amount)
      · rw [if_pos hbal]
        left
        exact ⟨"Insufficient funds. Available: " ++ toString fromW.balance ++
          ", Required: " ++ fracText req.amount, rfl⟩
      · rw [if_neg hbal]
        right
        exact ⟨fromW, toW, rfl, rfl, hbal, rfl⟩

/-- Every execution of `executeTransfer` either leaves the committed state
unchanged or commits one of the three transaction shapes. -/
theorem executeTransfer_db_cases (db : DB) (req : TransferRequest) :
    (executeTransfer db req).db = db ∨
    (∃ msg, (executeTransfer db req).db = failCommit db (failedLogOf db req msg)) ∨
    (∃ fromW toW, req.fromWalletId ≠ req.toWalletId ∧
      findWallet db.wallets req.fromWalletId = some fromW ∧
      findWallet db.wallets req.toWalletId = some toW ∧
      ¬ fracLt (jsWalletBalance fromW.balance) (toDouble req.amount) ∧
      (executeTransfer db req).db = successCommit db req fromW toW) := by
  by_cases h1 : fracNonpos (toDouble req.amount)
  · left
    unfold executeTransfer
    rw [if_pos h1]
  by_cases h2 : req.fromWalletId = req.toWalletId
  · left
    unfold executeTransfer
    rw [if_neg h1, if_pos h2]
  cases hlog : findLogByKey db.logs req.idempotencyKey with
  | some existing =>
    left
    rw [executeTransfer_eq_replay db req existing h1 h2 hlog]
  | none =>
    rw [executeTransfer_eq_runTx db req h1 h2 hlog]
    rcases runTransferTx_db_cases db req h2 with ⟨msg, hmsg⟩ | ⟨fromW, toW, hf, ht, hb, hdb⟩
    · right; left; exact ⟨msg, hmsg⟩
    · right; right; exact ⟨fromW, toW, h2, hf, ht, hb, hdb⟩

/-- The transaction body always locks the lexicographically first wallet id,
then the second, whatever else it does. -/
theorem runTransferTx_events (db : DB) (req : TransferRequest) :
    (runTransferTx db req).events =
      [.lockWallet (if req.fromWalletId < req.toWalletId then req.fromWalletId else req.toWalletId),
       .lockWallet (if req.fromWalletId < req.toWalletId then req.toWalletId else req.fromWalletId)] := by
  simp only [runTransferTx]
  split
  · rfl
  · split
    · rfl
    · split <;> rfl

/-- `executeTransfer` acquires either no lock (validation failure or replay)
or exactly the ordered pair of locks. -/
theorem executeTransfer_events_cases (db : DB) (req : TransferRequest) :
    (executeTransfer db req).events = [] ∨
    (executeTransfer db req).events =
      [.lockWallet (if req.fromWalletId < req.toWalletId then req.fromWalletId else req.toWalletId),
       .lockWallet (if req.fromWalletId < req.toWalletId then req.toWalletId else req.fromWalletId)] := by
  unfold executeTransfer
  by_cases h1 : fracNonpos (toDouble req.amount)
  · rw [if_pos h1]; left; rfl
  rw [if_neg h1]
  by_cases h2 : req.fromWalletId = req.toWalletId
  · rw [if_pos h2]; left; rfl
  rw [if_neg h2]
  cases hlog : findLogByKey db.logs req.idempotencyKey with
  | some existing => left; rfl
  | none => right; exact runTransferTx_events db req

/-- Same lock discipline for the cached service. -/
theorem executeTransferWS_events_cases (st : WSState) (req : TransferRequest) :
    (executeTransferWS st req).events = [] ∨
    (executeTransferWS st req).events =
      [.lockWallet (if req.fromWalletId < req.toWalletId then req.fromWalletId else req.toWalletId),
       .lockWallet (if req.fromWalletId < req.toWalletId then req.toWalletId else req.fromWalletId)] := by
  unfold executeTransferWS
  by_cases h0 : req.idempotencyKey = ""
  · rw [if_pos h0]; left; rfl
  rw [if_neg h0]
  by_cases h1 : fracNonpos (toDouble req.amount)
  · rw [if_pos h1]; left; rfl
  rw [if_neg h1]
  by_cases h2 : req.fromWalletId = req.toWalletId
  · rw [if_pos h2]; left; rfl
  rw [if_neg h2]
  dsimp only
  cases hc : cacheGet st.cache ("idempotency:" ++ req.idempotencyKey) with
  | some cached => left; rfl
  | none =>
    cases hlog : findLogByKey st.db.logs req.idempotencyKey with
    | some existing => left; rfl
    | none =>
      dsimp only
      right
      split
      · rfl
      · split
        · rfl
        · split <;> rfl

theorem uniq_of_findWallet (ws : List WalletRow) (hnd : (walletIds ws).Nodup)
    (w v : WalletRow) (hw : w ∈ ws) (hv : findWallet ws w.id = some v) : w = v := by
  rw [findWallet_of_mem ws w hnd hw] at hv
  exact Option.some_injective _ hv

/-- Unpacking `exactArithB` at resolved wallets: the two pipeline outputs
move the balances by exactly the committed cents. -/
theorem exactArith_spec (db : DB) (req : TransferRequest) (fromW toW : WalletRow)
    (hf : findWallet db.wallets req.fromWalletId = some fromW)
    (ht : findWallet db.wallets req.toWalletId = some toW)
    (hex : exactArithB db req = true) :
    jsBalanceAfterSub fromW.balance (toDouble req.amount) =
      fromW.balance - pgAmountCents req.amount ∧
    jsBalanceAfterAdd toW.balance (toDouble req.amount) =
      toW.balance + pgAmountCents req.amount := by
  unfold exactArithB at hex
  rw [hf, ht] at hex
  simp only [Bool.and_eq_true, decide_eq_true_eq] at hex
  exact hex

theorem ledger_invariant_step (db : DB) (req : TransferRequest)
    (hex : exactArithB db req = true)
    (h1 : ledgerInvariant db) (h2 : idsBounded db) :
    ledgerInvariant (executeTransfer db req).db ∧ idsBounded (executeTransfer db req).db := by
  rcases executeTransfer_db_cases db req with hdb | ⟨msg, hdb⟩ |
    ⟨fromW, toW, hne, hf, ht, hb, hdb⟩
  · rw [hdb]; exact ⟨h1, h2⟩
  · rw [hdb]
    refine ⟨?_, ?_, ?_⟩
    · intro l hl
      rcases List.mem_append.mp hl with hl | hl
      · exact h1 l hl
      · have hl' : l = failedLogOf db req msg := by simpa using hl
        subst hl'
        refine ⟨fun hc => absurd hc (by simp [failedLogOf]), fun _ => ?_⟩
        apply ledgerRowsFor_eq_nil
        intro e he
        have := h2.2 e he
        simp only [failedLogOf]
        omega
    · intro l hl
      rcases List.mem_append.mp hl with hl | hl
      · have := h2.1 l hl
        simp only [failCommit]
        omega
      · have hl' : l = failedLogOf db req msg := by simpa using hl
        subst hl'
        simp [failCommit, failedLogOf]
    · intro e he
      have := h2.2 e he
      simp only [failCommit]
      omega
  · rw [hdb]
    have hnew_nil : ledgerRowsFor db.ledgers db.nextId = [] := by
      apply ledgerRowsFor_eq_nil
      intro e he
      have := h2.2 e he
      omega
    refine ⟨?_, ?_, ?_⟩
    · intro l hl
      rcases List.mem_append.mp hl with hl | hl
      · have hid : l.id ≠ db.nextId := by
          have := h2.1 l hl
          omega
        have hpair : ledgerRowsFor (successCommit db req fromW toW).ledgers l.id =
            ledgerRowsFor db.ledgers l.id := by
          show ledgerRowsFor (db.ledgers ++ [debitRowOf db req fromW, creditRowOf db req toW])
            l.id = _
          rw [ledgerRowsFor_append]
          rw [ledgerRowsFor_eq_nil [debitRowOf db req fromW, creditRowOf db req toW] l.id ?_]
          · simp
          · intro e he
            rcases List.mem_cons.mp he with rfl | he'
            · simpa [debitRowOf] using fun h => hid h.symm
            · have : e = creditRowOf db req toW := by simpa using he'
              subst this
              simpa [creditRowOf] using fun h => hid h.symm
        refine ⟨fun hc => ?_, fun hc => ?_⟩
        · obtain ⟨d, c, hrows, hprops⟩ := (h1 l hl).1 hc
          exact ⟨d, c, hpair ▸ hrows, hprops⟩
        · rw [hpair]
          exact (h1 l hl).2 hc
      · have hl' : l = completedLogOf db req := by simpa using hl
        subst hl'
        obtain ⟨hS, hA⟩ := exactArith_spec db req fromW toW hf ht hex
        refine ⟨fun _ => ?_, fun hc => absurd rfl hc⟩
        refine ⟨debitRowOf db req fromW, creditRowOf db req toW, ?_, ?_⟩
        · show ledgerRowsFor (db.ledgers ++ [debitRowOf db req fromW, creditRowOf db req toW])
            (completedLogOf db req).id = _
          rw [ledgerRowsFor_append]
          rw [show (completedLogOf db req).id = db.nextId from rfl, hnew_nil]
          simp [ledgerRowsFor, debitRowOf, creditRowOf]
        · exact ⟨rfl, rfl, rfl, hS, rfl, rfl, rfl, hA⟩
    · intro l hl
      rcases List.mem_append.mp hl with hl | hl
      · have := h2.1 l hl
        simp only [successCommit]
        omega
      · have hl' : l = completedLogOf db req := by simpa using hl
        subst hl'
        simp [successCommit, completedLogOf]
    · intro e he
      rcases List.mem_append.mp he with he | he
      · have := h2.2 e he
        simp only [successCommit]
        omega
      · rcases List.mem_cons.mp he with rfl | he'
        · simp [successCommit, debitRowOf]
        · have : e = creditRowOf db req toW := by simpa using he'
          subst this
          simp [successCommit, creditRowOf]

theorem balance_invariant_step (db₀ db : DB) (req : TransferRequest)
    (hex : exactArithB db req = true)
    (hnd : (walletIds db₀.wallets).Nodup)
    (h : balanceInvariant db₀ db) : balanceInvariant db₀ (executeTransfer db req).db := by
  obtain ⟨hids, hbal, htot⟩ := h
  have hndcur : (walletIds db.wallets).Nodup := by rw [hids]; exact hnd
  rcases executeTransfer_db_cases db req with hdb | ⟨msg, hdb⟩ |
    ⟨fromW, toW, hne, hf, ht, hb, hdb⟩
  · rw [hdb]; exact ⟨hids, hbal, htot⟩
  · rw [hdb]; exact ⟨hids, hbal, htot⟩
  · rw [hdb]
    have hfid : fromW.id = req.fromWalletId := (findWallet_mem_id _ _ _ hf).2
    have htid : toW.id = req.toWalletId := (findWallet_mem_id _ _ _ ht).2
    have hfmem : fromW ∈ db.wallets := (findWallet_mem_id _ _ _ hf).1
    have htmem : toW ∈ db.wallets := (findWallet_mem_id _ _ _ ht).1
    obtain ⟨hS, hA⟩ := exactArith_spec db req fromW toW hf ht hex
    set fa := jsBalanceAfterSub fromW.balance (toDouble req.amount) with hfa
    set ta := jsBalanceAfterAdd toW.balance (toDouble req.amount) with hta
    have hwids : walletIds (successCommit db req fromW toW).wallets = walletIds db.wallets := by
      show walletIds (setWalletBalance (setWalletBalance db.wallets req.fromWalletId fa)
        req.toWalletId ta) = _
      rw [walletIds_setWalletBalance, walletIds_setWalletBalance]
    refine ⟨by rw [hwids, hids], ?_, ?_⟩
    · intro w' hw'
      obtain ⟨w1, hw1, hw'eq⟩ := mem_setWalletBalance _ _ _ _ hw'
      obtain ⟨w0, hw0, hw1eq⟩ := mem_setWalletBalance _ _ _ _ hw1
      obtain ⟨wb, hwbmem, hwbid, hwbeq⟩ := hbal w0 hw0
      have hsums : ∀ wid : WalletId,
          creditSum (successCommit db req fromW toW).ledgers wid =
            creditSum db.ledgers wid +
              (if req.toWalletId = wid then pgAmountCents req.amount else 0) ∧
          debitSum (successCommit db req fromW toW).ledgers wid =
            debitSum db.ledgers wid +
              (if req.fromWalletId = wid then pgAmountCents req.amount else 0) := by
        intro wid
        constructor
        · show creditSum (db.ledgers ++ [debitRowOf db req fromW, creditRowOf db req toW])
            wid = _
          rw [creditSum_append]
          congr 1
          simp [creditSum, debitRowOf, creditRowOf]
        · show debitSum (db.ledgers ++ [debitRowOf db req fromW, creditRowOf db req toW])
            wid = _
          rw [debitSum_append]
          congr 1
          simp [debitSum, debitRowOf, creditRowOf]
      by_cases h0f : w0.id = req.fromWalletId
      · have hw0fW : w0 = fromW :=
          uniq_of_findWallet db.wallets hndcur w0 fromW hw0 (by rw [h0f]; exact hf)
        rw [if_pos h0f] at hw1eq
        have hw1id : w1.id = req.fromWalletId := by rw [hw1eq]; exact h0f
        have hw1to : ¬ w1.id = req.toWalletId := by rw [hw1id]; exact hne
        rw [if_neg hw1to] at hw'eq
        have hfrombal : fromW.balance =
            wb.balance + creditSum db.ledgers req.fromWalletId -
              debitSum db.ledgers req.fromWalletId := by
          have heq := hwbeq
          rw [h0f, hw0fW] at heq
          exact heq
        refine ⟨wb, hwbmem, ?_, ?_⟩
        · rw [hwbid, hw'eq, hw1eq, h0f]
        · have hwid : w'.id = req.fromWalletId := by rw [hw'eq]; exact hw1id
          rw [hwid, (hsums req.fromWalletId).1, (hsums req.fromWalletId).2,
            if_neg (fun hh => hne hh.symm), if_pos rfl]
          have hw'bal : w'.balance = fa := by rw [hw'eq, hw1eq]
          rw [hw'bal, hS]
          omega
      · rw [if_neg h0f] at hw1eq
        by_cases h0t : w0.id = req.toWalletId
        · have hw0tW : w0 = toW :=
            uniq_of_findWallet db.wallets hndcur w0 toW hw0 (by rw [h0t]; exact ht)
          have hw1to : w1.id = req.toWalletId := by rw [hw1eq]; exact h0t
          rw [if_pos hw1to] at hw'eq
          have htobal : toW.balance =
              wb.balance + creditSum db.ledgers req.toWalletId -
                debitSum db.ledgers req.toWalletId := by
            have heq := hwbeq
            rw [h0t, hw0tW] at heq
            exact heq
          refine ⟨wb, hwbmem, ?_, ?_⟩
          · rw [hwbid, hw'eq, hw1eq, h0t]
          · have hwid : w'.id = req.toWalletId := by rw [hw'eq]; exact hw1to
            rw [hwid, (hsums req.toWalletId).1, (hsums req.toWalletId).2,
              if_pos rfl, if_neg (fun hh => hne hh)]
            have hw'bal : w'.balance = ta := by rw [hw'eq]
            rw [hw'bal, hA]
            omega
        · have hw1id : w1 = w0 := hw1eq
          have hw1to : ¬ w1.id = req.toWalletId := by rw [hw1id]; exact h0t
          rw [if_neg hw1to] at hw'eq
          have hw'w0 : w' = w0 := by rw [hw'eq, hw1id]
          refine ⟨wb, hwbmem, by rw [hw'w0, hwbid], ?_⟩
          rw [hw'w0, (hsums w0.id).1, (hsums w0.id).2,
            if_neg (fun hh => h0t hh.symm), if_neg (fun hh => h0f hh.symm)]
          omega
    · have hnd1 : (walletIds (setWalletBalance db.wallets req.fromWalletId fa)).Nodup := by
        rw [walletIds_setWalletBalance]; exact hndcur
      have hftW : findWallet (setWalletBalance db.wallets req.fromWalletId fa)
          req.toWalletId = some toW :=
        (findWallet_setWalletBalance_ne db.wallets req.fromWalletId req.toWalletId fa
          (fun hh => hne hh.symm)).trans ht
      show totalBalance (setWalletBalance (setWalletBalance db.wallets req.fromWalletId fa)
        req.toWalletId ta) = _
      rw [totalBalance_setWalletBalance _ _ _ toW hnd1 hftW,
        totalBalance_setWalletBalance _ _ _ fromW hndcur hf, htot, hS, hA]
      ring

/-! ### Branch reduction lemmas for the engines -/

theorem runTransferTx_missing_from (db : DB) (req : TransferRequest)
    (h2 : ¬ req.fromWalletId = req.toWalletId)
    (hf : findWallet db.wallets req.fromWalletId = none) :
    runTransferTx db req =
      ⟨.error (.walletNotFound req.fromWalletId),
        failCommit db (failedLogOf db req
          ("Source wallet not found: " ++ toString req.fromWalletId)),
        [DBEvent.lockWallet (if req.fromWalletId < req.toWalletId then req.fromWalletId
            else req.toWalletId),
          DBEvent.lockWallet (if req.fromWalletId < req.toWalletId then req.toWalletId
            else req.fromWalletId)]⟩ := by
  conv_lhs => simp only [runTransferTx]
  conv_lhs => rw [resolve_fromWallet db.wallets _ _ h2, resolve_toWallet db.wallets _ _ h2, hf]
  dsimp only
  simp only [failCommit, failedLogOf]

theorem runTransferTx_missing_to (db : DB) (req : TransferRequest)
    (fromW : WalletRow)
    (h2 : ¬ req.fromWalletId = req.toWalletId)
    (hf : findWallet db.wallets req.fromWalletId = some fromW)
    (ht : findWallet db.wallets req.toWalletId = none) :
    runTransferTx db req =
      ⟨.error (.walletNotFound req.toWalletId),
        failCommit db (failedLogOf db req
          ("Destination wallet not found: " ++ toString req.toWalletId)),
        [DBEvent.lockWallet (if req.fromWalletId < req.toWalletId then req.fromWalletId
            else req.toWalletId),
          DBEvent.lockWallet (if req.fromWalletId < req.toWalletId then req.toWalletId
            else req.fromWalletId)]⟩ := by
  conv_lhs => simp only [runTransferTx]
  conv_lhs => rw [resolve_fromWallet db.wallets _ _ h2, resolve_toWallet db.wallets _ _ h2, hf, ht]
  dsimp only
  simp only [failCommit, failedLogOf]

theorem runTransferTx_insufficient (db : DB) (req : TransferRequest)
    (fromW toW : WalletRow)
    (h2 : ¬ req.fromWalletId = req.toWalletId)
    (hf : findWallet db.wallets req.fromWalletId = some fromW)
    (ht : findWallet db.wallets req.toWalletId = some toW)
    (hbal : fracLt (jsWalletBalance fromW.balance) (toDouble req.amount)) :
    runTransferTx db req =
      ⟨.error (.insufficientFunds ("Insufficient funds. Available: " ++
          toString fromW.balance ++ ", Required: " ++ fracText req.amount)),
        failCommit db (failedLogOf db req ("Insufficient funds. Available: " ++
          toString fromW.balance ++ ", Required: " ++ fracText req.amount)),
        [DBEvent.lockWallet (if req.fromWalletId < req.toWalletId then req.fromWalletId
            else req.toWalletId),
          DBEvent.lockWallet (if req.fromWalletId < req.toWalletId then req.toWalletId
            else req.fromWalletId)]⟩ := by
  conv_lhs => simp only [runTransferTx]
  conv_lhs => rw [resolve_fromWallet db.wallets _ _ h2, resolve_toWallet db.wallets _ _ h2, hf, ht]
  dsimp only
  rw [if_pos hbal]
  simp only [failCommit, failedLogOf]

theorem executeTransferWS_eq_replay (st : WSState) (req : TransferRequest)
    (existing : TransactionLogRow)
    (hkey : ¬ req.idempotencyKey = "") (h1 : ¬ fracNonpos (toDouble req.amount))
    (h2 : ¬ req.fromWalletId = req.toWalletId)
    (hcache : cacheGet st.cache ("idempotency:" ++ req.idempotencyKey) = none)
    (hlog : findLogByKey st.db.logs req.idempotencyKey = some existing) :
    executeTransferWS st req =
      ⟨.ok (wsReplayResult existing),
        { st with cache := cacheSet st.cache ("idempotency:" ++ req.idempotencyKey) (wsReplayResult existing) }, []⟩ := by
  unfold executeTransferWS
  rw [if_neg hkey, if_neg h1, if_neg h2]
  dsimp only
  rw [hcache, hlog]
  simp only [wsReplayResult]

theorem executeTransferWS_missing_from (st : WSState) (req : TransferRequest)
    (hkey : ¬ req.idempotencyKey = "") (h1 : ¬ fracNonpos (toDouble req.amount))
    (h2 : ¬ req.fromWalletId = req.toWalletId)
    (hcache : cacheGet st.cache ("idempotency:" ++ req.idempotencyKey) = none)
    (hlog : findLogByKey st.db.logs req.idempotencyKey = none)
    (hf : findWallet st.db.wallets req.fromWalletId = none) :
    executeTransferWS st req =
      ⟨.error (.walletNotFound req.fromWalletId), st,
        [DBEvent.lockWallet (if req.fromWalletId < req.toWalletId then req.fromWalletId
            else req.toWalletId),
          DBEvent.lockWallet (if req.fromWalletId < req.toWalletId then req.toWalletId
            else req.fromWalletId)]⟩ := by
  conv_lhs => rw [executeTransferWS]
  conv_lhs => rw [if_neg hkey, if_neg h1, if_neg h2]
  conv_lhs =>
    dsimp only
    rw [hcache, hlog]
    dsimp only
    rw [resolve_fromWallet st.db.wallets _ _ h2, resolve_toWallet st.db.wallets _ _ h2, hf]

theorem executeTransferWS_missing_to (st : WSState) (req : TransferRequest)
    (fromW : WalletRow)
    (hkey : ¬ req.idempotencyKey = "") (h1 : ¬ fracNonpos (toDouble req.amount))
    (h2 : ¬ req.fromWalletId = req.toWalletId)
    (hcache : cacheGet st.cache ("idempotency:" ++ req.idempotencyKey) = none)
    (hlog : findLogByKey st.db.logs req.idempotencyKey = none)
    (hf : findWallet st.db.wallets req.fromWalletId = some fromW)
    (ht : findWallet st.db.wallets req.toWalletId = none) :
    executeTransferWS st req =
      ⟨.error (.walletNotFound req.toWalletId), st,
        [DBEvent.lockWallet (if req.fromWalletId < req.toWalletId then req.fromWalletId
            else req.toWalletId),
          DBEvent.lockWallet (if req.fromWalletId < req.toWalletId then req.toWalletId
            else req.fromWalletId)]⟩ := by
  conv_lhs => rw [executeTransferWS]
  conv_lhs => rw [if_neg hkey, if_neg h1, if_neg h2]
  conv_lhs =>
    dsimp only
    rw [hcache, hlog]
    dsimp only
    rw [resolve_fromWallet st.db.wallets _ _ h2, resolve_toWallet st.db.wallets _ _ h2, hf, ht]

theorem executeTransferWS_insufficient (st : WSState) (req : TransferRequest)
    (fromW toW : WalletRow)
    (hkey : ¬ req.idempotencyKey = "") (h1 : ¬ fracNonpos (toDouble req.amount))
    (h2 : ¬ req.fromWalletId = req.toWalletId)
    (hcache : cacheGet st.cache ("idempotency:" ++ req.idempotencyKey) = none)
    (hlog : findLogByKey st.db.logs req.idempotencyKey = none)
    (hf : findWallet st.db.wallets req.fromWalletId = some fromW)
    (ht : findWallet st.db.wallets req.toWalletId = some toW)
    (hbal : fracLt (jsWalletBalance fromW.balance) (toDouble req.amount)) :
    executeTransferWS st req =
      ⟨.error (.insufficientFunds ("Insufficient funds. Available: " ++
          toString fromW.balance ++ ", Required: " ++ fracText req.amount)),
        { st with db := failCommit st.db (failedLogOf st.db req
          ("Insufficient funds. Available: " ++
            toString fromW.balance ++ ", Required: " ++ fracText req.amount)) },
        [DBEvent.lockWallet (if req.fromWalletId < req.toWalletId then req.fromWalletId
            else req.toWalletId),
          DBEvent.lockWallet (if req.fromWalletId < req.toWalletId then req.toWalletId
            else req.fromWalletId)]⟩ := by
  conv_lhs => rw [executeTransferWS]
  conv_lhs => rw [if_neg hkey, if_neg h1, if_neg h2]
  conv_lhs =>
    dsimp only
    rw [hcache, hlog]
    dsimp only
    rw [resolve_fromWallet st.db.wallets _ _ h2, resolve_toWallet st.db.wallets _ _ h2, hf, ht]
  dsimp only
  rw [if_pos hbal]
  simp only [failCommit, failedLogOf]

theorem append_ne_empty (p s : String) (hp : p.data ≠ []) : p ++ s ≠ "" := by
  intro h
  apply hp
  have hd : (p ++ s).data = ([] : List Char) := by rw [h]
  rw [String.data_append] at hd
  exact (List.append_eq_nil.mp hd).1

theorem triple_append_ne_empty (p a b c : String) (hp : p.data ≠ []) :
    p ++ a ++ b ++ c ≠ "" := by
  apply append_ne_empty
  intro h
  apply hp
  rw [String.data_append, String.data_append] at h
  exact (List.append_eq_nil.mp (List.append_eq_nil.mp h).1).1

theorem calculateDailyInterest_first_time (tz : ℤ) (db : IDB) (aid : String) (ms : ℤ)
    (account : AccountRow)
    (hlog : findInterestLog db.interestLogs aid (utcDateOfMs ms) = none)
    (hacct : findAccount db.accounts aid = some account) :
    calculateDailyInterest tz db aid ms =
      ⟨.ok (interestResultOf aid (utcDateOfMs ms) account.balance (localYearOfMs tz ms)),
        [interestInsertCommit db
          (interestLogRowOf aid (utcDateOfMs ms) account.balance (localYearOfMs tz ms)),
         interestUpdateCommit
          (interestInsertCommit db
            (interestLogRowOf aid (utcDateOfMs ms) account.balance (localYearOfMs tz ms)))
          aid
          (interestLogRowOf aid (utcDateOfMs ms) account.balance (localYearOfMs tz ms)).newBalance],
        interestUpdateCommit
          (interestInsertCommit db
            (interestLogRowOf aid (utcDateOfMs ms) account.balance (localYearOfMs tz ms)))
          aid
          (interestLogRowOf aid (utcDateOfMs ms) account.balance
            (localYearOfMs tz ms)).newBalance⟩ := by
  unfold calculateDailyInterest
  dsimp only
  rw [hlog, hacct]
  simp only [interestResultOf, interestInsertCommit, interestUpdateCommit, interestLogRowOf,
    calculateInterest, calculateNewBalance, calculateDailyRate]

theorem calculateDailyInterest_replay (tz : ℤ) (db : IDB) (aid : String) (ms : ℤ)
    (existing : InterestLogRow)
    (hlog : findInterestLog db.interestLogs aid (utcDateOfMs ms) = some existing) :
    calculateDailyInterest tz db aid ms =
      ⟨.ok { accountId := existing.accountId
             calculationDate := existing.calculationDate
             principalBalance := existing.principalBalance
             interestAmount := existing.interestAmount
             annualRate := existing.annualRate
             dailyRate := decToFixed 8 (decDiv existing.annualRate existing.daysInYear)
             daysInYear := existing.daysInYear
             newBalance := existing.newBalance
             isNew := false }, [], db⟩ := by
  unfold calculateDailyInterest
  dsimp only
  rw [hlog]

theorem calculateDailyInterest_missing_account (tz : ℤ) (db : IDB) (aid : String) (ms : ℤ)
    (hlog : findInterestLog db.interestLogs aid (utcDateOfMs ms) = none)
    (hacct : findAccount db.accounts aid = none) :
    calculateDailyInterest tz db aid ms = ⟨.error (.accountNotFound aid), [], db⟩ := by
  unfold calculateDailyInterest
  dsimp only
  rw [hlog, hacct]

/-! ### Claim theorems -/

/-- C1 (counterexample): in the cached service, after a first-time transfer
with key k1 has committed (so a TransactionLog row for k1 exists) and has
populated the Redis cache, a second call with the same key is served from the
cache and returns a response whose `isIdempotent` field is absent — not
`true` as the claim states. -/
theorem C1_counterexample :
    (findLogByKey
      (executeTransferWS ⟨⟨[⟨1, 100000⟩, ⟨2, 50000⟩], [], [], 0⟩, []⟩
        ⟨"k1", 1, 2, ⟨100, 1⟩⟩).state.db.logs "k1").isSome = true ∧
    ((executeTransferWS
        (executeTransferWS ⟨⟨[⟨1, 100000⟩, ⟨2, 50000⟩], [], [], 0⟩, []⟩
          ⟨"k1", 1, 2, ⟨100, 1⟩⟩).state
        ⟨"k1", 1, 2, ⟨100, 1⟩⟩).result.toOption.map (·.isIdempotent)) = some none := by
  decide

/-- C1 (amended): on a replay the module-level engine returns the stored row
with `success = (status = COMPLETED)` and `isIdempotent = true`, leaving the
state untouched and acquiring no lock; the cached service does the same on a
cache miss.  Only a response served from the Redis cache of a first-time
success lacks the `isIdempotent` flag (see the counterexample). -/
theorem C1_amended (db : DB) (st : WSState) (req : TransferRequest)
    (existing existingWS : TransactionLogRow)
    (h1 : ¬ fracNonpos (toDouble req.amount)) (h2 : ¬ req.fromWalletId = req.toWalletId)
    (hkey : ¬ req.idempotencyKey = "")
    (hlog : findLogByKey db.logs req.idempotencyKey = some existing)
    (hcache : cacheGet st.cache ("idempotency:" ++ req.idempotencyKey) = none)
    (hlogWS : findLogByKey st.db.logs req.idempotencyKey = some existingWS) :
    ((executeTransfer db req).result =
        .ok (replayResult existing
          (if existing.status = TransactionStatus.COMPLETED then
            "Transfer already completed (idempotent response)"
           else "Transfer previously " ++ statusText existing.status)) ∧
      (∀ m, (replayResult existing m).transactionLog = existing ∧
        (replayResult existing m).isIdempotent = some true ∧
        (replayResult existing m).success = decide (existing.status = .COMPLETED)) ∧
      (executeTransfer db req).db = db ∧
      (executeTransfer db req).events = []) ∧
    ((executeTransferWS st req).result = .ok (wsReplayResult existingWS) ∧
      (wsReplayResult existingWS).data = some (responseDataOf existingWS) ∧
      (wsReplayResult existingWS).isIdempotent = some true ∧
      (wsReplayResult existingWS).success = decide (existingWS.status = .COMPLETED) ∧
      (executeTransferWS st req).state.db = st.db ∧
      (executeTransferWS st req).events = []) := by
  rw [executeTransfer_eq_replay db req existing h1 h2 hlog,
    executeTransferWS_eq_replay st req existingWS hkey h1 h2 hcache hlogWS]
  exact ⟨⟨rfl, fun m => ⟨rfl, rfl, rfl⟩, rfl, rfl⟩, rfl, rfl, rfl, rfl, rfl, rfl⟩

/-- C1 (witness): concrete replay of a COMPLETED row through both engines. -/
theorem C1_witness :
    (executeTransfer ⟨[], [⟨0, "k", 1, 2, 100, .COMPLETED, none, 0⟩], [], 1⟩
        ⟨"k", 1, 2, ⟨100, 1⟩⟩).db =
      ⟨[], [⟨0, "k", 1, 2, 100, .COMPLETED, none, 0⟩], [], 1⟩ ∧
    (executeTransferWS ⟨⟨[], [⟨0, "k", 1, 2, 100, .COMPLETED, none, 0⟩], [], 1⟩, []⟩
        ⟨"k", 1, 2, ⟨100, 1⟩⟩).result =
      .ok (wsReplayResult ⟨0, "k", 1, 2, 100, .COMPLETED, none, 0⟩) :=
  ⟨(C1_amended ⟨[], [⟨0, "k", 1, 2, 100, .COMPLETED, none, 0⟩], [], 1⟩
      ⟨⟨[], [⟨0, "k", 1, 2, 100, .COMPLETED, none, 0⟩], [], 1⟩, []⟩
      ⟨"k", 1, 2, ⟨100, 1⟩⟩ ⟨0, "k", 1, 2, 100, .COMPLETED, none, 0⟩
      ⟨0, "k", 1, 2, 100, .COMPLETED, none, 0⟩
      (by decide) (by decide) (by decide) (by decide) (by decide) (by decide)).1.2.2.1,
   (C1_amended ⟨[], [⟨0, "k", 1, 2, 100, .COMPLETED, none, 0⟩], [], 1⟩
      ⟨⟨[], [⟨0, "k", 1, 2, 100, .COMPLETED, none, 0⟩], [], 1⟩, []⟩
      ⟨"k", 1, 2, ⟨100, 1⟩⟩ ⟨0, "k", 1, 2, 100, .COMPLETED, none, 0⟩
      ⟨0, "k", 1, 2, 100, .COMPLETED, none, 0⟩
      (by decide) (by decide) (by decide) (by decide) (by decide) (by decide)).2.1⟩

/-- C3: whichever of the two wallets is source and which destination, both
engines lock the lexicographically smaller wallet id first — any transfer
over the pair `{a, b}` with `a < b` either acquires no lock (early return) or
acquires the lock on `a` and then the lock on `b`. -/
theorem C3_lock_order (db : DB) (st : WSState) (req : TransferRequest) (a b : WalletId)
    (hab : a < b)
    (hpair : (req.fromWalletId = a ∧ req.toWalletId = b) ∨
      (req.fromWalletId = b ∧ req.toWalletId = a)) :
    ((executeTransfer db req).events = [] ∨
      (executeTransfer db req).events = [.lockWallet a, .lockWallet b]) ∧
    ((executeTransferWS st req).events = [] ∨
      (executeTransferWS st req).events = [.lockWallet a, .lockWallet b]) := by
  have hmin : (if req.fromWalletId < req.toWalletId then req.fromWalletId
      else req.toWalletId) = a := by
    rcases hpair with ⟨hf, ht⟩ | ⟨hf, ht⟩
    · rw [hf, ht, if_pos hab]
    · rw [hf, ht, if_neg (lt_asymm hab)]
  have hmax : (if req.fromWalletId < req.toWalletId then req.toWalletId
      else req.fromWalletId) = b := by
    rcases hpair with ⟨hf, ht⟩ | ⟨hf, ht⟩
    · rw [hf, ht, if_pos hab]
    · rw [hf, ht, if_neg (lt_asymm hab)]
  constructor
  · rcases executeTransfer_events_cases db req with h | h
    · left; exact h
    · right; rw [h, hmin, hmax]
  · rcases executeTransferWS_events_cases st req with h | h
    · left; exact h
    · right; rw [h, hmin, hmax]

/-- C3 (witness): a transfer from the larger id 2 to the smaller id 1 still
locks wallet 1 first. -/
theorem C3_witness :
    (1 : WalletId) < 2 ∧
    ((executeTransfer ⟨[⟨1, 1000⟩, ⟨2, 500⟩], [], [], 0⟩
        ⟨"k", 2, 1, ⟨100, 1⟩⟩).events = [] ∨
      (executeTransfer ⟨[⟨1, 1000⟩, ⟨2, 500⟩], [], [], 0⟩
        ⟨"k", 2, 1, ⟨100, 1⟩⟩).events =
        [.lockWallet 1, .lockWallet 2]) :=
  ⟨by decide,
   (C3_lock_order ⟨[⟨1, 1000⟩, ⟨2, 500⟩], [], [], 0⟩
      ⟨⟨[⟨1, 1000⟩, ⟨2, 500⟩], [], [], 0⟩, []⟩ ⟨"k", 2, 1, ⟨100, 1⟩⟩ 1 2
      (by decide) (Or.inr ⟨rfl, rfl⟩)).1⟩

/-- C10: when a log row for the idempotency key exists, the module-level
engine replays the stored row even when the request names different wallets
and a different amount: no validation error is raised, the response carries
the stored row, and nothing is written. -/
theorem C10_replay_ignores_mismatch (db : DB) (req : TransferRequest)
    (existing : TransactionLogRow)
    (h1 : ¬ fracNonpos (toDouble req.amount)) (h2 : ¬ req.fromWalletId = req.toWalletId)
    (hlog : findLogByKey db.logs req.idempotencyKey = some existing)
    (hmf : req.fromWalletId ≠ existing.fromWalletId)
    (hmt : req.toWalletId ≠ existing.toWalletId)
    (hma : pgAmountCents req.amount ≠ existing.amount) :
    (executeTransfer db req).result =
      .ok (replayResult existing
        (if existing.status = TransactionStatus.COMPLETED then
          "Transfer already completed (idempotent response)"
         else "Transfer previously " ++ statusText existing.status)) ∧
    (∀ m, (replayResult existing m).transactionLog = existing) ∧
    (executeTransfer db req).db = db ∧
    (executeTransfer db req).events = [] := by
  rw [executeTransfer_eq_replay db req existing h1 h2 hlog]
  exact ⟨rfl, fun m => rfl, rfl, rfl⟩

/-- C10 (witness): a retry naming different wallets and a different amount
still replays the stored row and writes nothing. -/
theorem C10_witness :
    (executeTransfer ⟨[], [⟨0, "k", 1, 2, 100, .COMPLETED, none, 0⟩], [], 1⟩
        ⟨"k", 7, 8, ⟨999, 1⟩⟩).result =
      .ok (replayResult ⟨0, "k", 1, 2, 100, .COMPLETED, none, 0⟩
        (if (⟨0, "k", 1, 2, 100, .COMPLETED, none, 0⟩ : TransactionLogRow).status =
            TransactionStatus.COMPLETED then
          "Transfer already completed (idempotent response)"
         else "Transfer previously " ++
          statusText (⟨0, "k", 1, 2, 100, .COMPLETED, none, 0⟩ : TransactionLogRow).status)) ∧
    (executeTransfer ⟨[], [⟨0, "k", 1, 2, 100, .COMPLETED, none, 0⟩], [], 1⟩
        ⟨"k", 7, 8, ⟨999, 1⟩⟩).db =
      ⟨[], [⟨0, "k", 1, 2, 100, .COMPLETED, none, 0⟩], [], 1⟩ :=
  ⟨(C10_replay_ignores_mismatch ⟨[], [⟨0, "k", 1, 2, 100, .COMPLETED, none, 0⟩], [], 1⟩
      ⟨"k", 7, 8, ⟨999, 1⟩⟩ ⟨0, "k", 1, 2, 100, .COMPLETED, none, 0⟩
      (by decide) (by decide) (by decide) (by decide) (by decide) (by decide)).1,
   (C10_replay_ignores_mismatch ⟨[], [⟨0, "k", 1, 2, 100, .COMPLETED, none, 0⟩], [], 1⟩
      ⟨"k", 7, 8, ⟨999, 1⟩⟩ ⟨0, "k", 1, 2, 100, .COMPLETED, none, 0⟩
      (by decide) (by decide) (by decide) (by decide) (by decide) (by decide)).2.2.1⟩

/-- C6 (counterexample): in the cached service, a transfer whose destination
wallet does not exist surfaces WalletNotFound but commits nothing — the
throw happens before the PENDING log is inserted, so no FAILED
TransactionLog row exists afterwards, contrary to the claim. -/
theorem C6_counterexample :
    (executeTransferWS ⟨⟨[⟨1, 1000⟩], [], [], 0⟩, []⟩ ⟨"k6", 1, 2, ⟨100, 1⟩⟩).result =
      .error (.walletNotFound 2) ∧
    (executeTransferWS ⟨⟨[⟨1, 1000⟩], [], [], 0⟩, []⟩ ⟨"k6", 1, 2, ⟨100, 1⟩⟩).state =
      ⟨⟨[⟨1, 1000⟩], [], [], 0⟩, []⟩ := by
  decide

/-- C6 (amended): in the module-level engine, both a missing wallet and an
insufficient balance commit a FAILED log with a non-empty error message and
surface the error, with no ledger rows and no balance change; in the cached
service, insufficient funds behaves the same, but a missing wallet is
surfaced with *no* committed log row. -/
theorem C6_amended (db : DB) (st : WSState) (req : TransferRequest) (fromW toW fromWS toWS : WalletRow)
    (h1 : ¬ fracNonpos (toDouble req.amount)) (h2 : ¬ req.fromWalletId = req.toWalletId)
    (hkey : ¬ req.idempotencyKey = "")
    (hlog : findLogByKey db.logs req.idempotencyKey = none)
    (hcache : cacheGet st.cache ("idempotency:" ++ req.idempotencyKey) = none)
    (hlogWS : findLogByKey st.db.logs req.idempotencyKey = none) :
    (findWallet db.wallets req.fromWalletId = some fromW →
      findWallet db.wallets req.toWalletId = some toW →
      fracLt (jsWalletBalance fromW.balance) (toDouble req.amount) →
      (executeTransfer db req).result = .error (.insufficientFunds
        ("Insufficient funds. Available: " ++ toString fromW.balance ++
          ", Required: " ++ fracText req.amount)) ∧
      (executeTransfer db req).db.logs = db.logs ++ [failedLogOf db req
        ("Insufficient funds. Available: " ++ toString fromW.balance ++
          ", Required: " ++ fracText req.amount)] ∧
      (∀ m, (failedLogOf db req m).status = .FAILED ∧
        (failedLogOf db req m).errorMessage = some m) ∧
      ("Insufficient funds. Available: " ++ toString fromW.balance ++
        ", Required: " ++ fracText req.amount) ≠ "" ∧
      (executeTransfer db req).db.wallets = db.wallets ∧
      (executeTransfer db req).db.ledgers = db.ledgers) ∧
    (findWallet db.wallets req.fromWalletId = none →
      (executeTransfer db req).result = .error (.walletNotFound req.fromWalletId) ∧
      (executeTransfer db req).db.logs = db.logs ++ [failedLogOf db req
        ("Source wallet not found: " ++ toString req.fromWalletId)] ∧
      ("Source wallet not found: " ++ toString req.fromWalletId) ≠ "" ∧
      (executeTransfer db req).db.wallets = db.wallets ∧
      (executeTransfer db req).db.ledgers = db.ledgers) ∧
    (findWallet db.wallets req.fromWalletId = some fromW →
      findWallet db.wallets req.toWalletId = none →
      (executeTransfer db req).result = .error (.walletNotFound req.toWalletId) ∧
      (executeTransfer db req).db.logs = db.logs ++ [failedLogOf db req
        ("Destination wallet not found: " ++ toString req.toWalletId)] ∧
      (executeTransfer db req).db.wallets = db.wallets ∧
      (executeTransfer db req).db.ledgers = db.ledgers) ∧
    (findWallet st.db.wallets req.fromWalletId = none →
      (executeTransferWS st req).result = .error (.walletNotFound req.fromWalletId) ∧
      (executeTransferWS st req).state = st) ∧
    (findWallet st.db.wallets req.fromWalletId = some fromWS →
      findWallet st.db.wallets req.toWalletId = some toWS →
      fracLt (jsWalletBalance fromWS.balance) (toDouble req.amount) →
      (executeTransferWS st req).result = .error (.insufficientFunds
        ("Insufficient funds. Available: " ++ toString fromWS.balance ++
          ", Required: " ++ fracText req.amount)) ∧
      (executeTransferWS st req).state.db.logs = st.db.logs ++ [failedLogOf st.db req
        ("Insufficient funds. Available: " ++ toString fromWS.balance ++
          ", Required: " ++ fracText req.amount)] ∧
      (executeTransferWS st req).state.db.wallets = st.db.wallets ∧
      (executeTransferWS st req).state.db.ledgers = st.db.ledgers) := by
  refine ⟨?_, ?_, ?_, ?_, ?_⟩
  · intro hf ht hbal
    rw [executeTransfer_eq_runTx db req h1 h2 hlog,
      runTransferTx_insufficient db req fromW toW h2 hf ht hbal]
    refine ⟨rfl, rfl, fun m => ⟨rfl, rfl⟩, ?_, rfl, rfl⟩
    exact triple_append_ne_empty "Insufficient funds. Available: " _ ", Required: " _ (by decide)
  · intro hf
    rw [executeTransfer_eq_runTx db req h1 h2 hlog,
      runTransferTx_missing_from db req h2 hf]
    exact ⟨rfl, rfl, append_ne_empty _ _ (by decide), rfl, rfl⟩
  · intro hf ht
    rw [executeTransfer_eq_runTx db req h1 h2 hlog,
      runTransferTx_missing_to db req fromW h2 hf ht]
    exact ⟨rfl, rfl, rfl, rfl⟩
  · intro hf
    rw [executeTransferWS_missing_from st req hkey h1 h2 hcache hlogWS hf]
    exact ⟨rfl, rfl⟩
  · intro hf ht hbal
    rw [executeTransferWS_insufficient st req fromWS toWS hkey h1 h2 hcache hlogWS hf ht hbal]
    exact ⟨rfl, rfl, rfl, rfl⟩

/-- C6 (witness): concrete insufficient-funds transfer (balance 10, amount
50) through the module-level engine commits exactly one FAILED log. -/
theorem C6_witness :
    (executeTransfer ⟨[⟨1, 1000⟩, ⟨2, 0⟩], [], [], 0⟩ ⟨"k2", 1, 2, ⟨50, 1⟩⟩).result =
      .error (.insufficientFunds
        ("Insufficient funds. Available: " ++ toString (1000 : ℤ) ++
          ", Required: " ++ fracText ⟨50, 1⟩)) ∧
    (executeTransfer ⟨[⟨1, 1000⟩, ⟨2, 0⟩], [], [], 0⟩ ⟨"k2", 1, 2, ⟨50, 1⟩⟩).db.wallets =
      [⟨1, 1000⟩, ⟨2, 0⟩] :=
  ⟨((C6_amended ⟨[⟨1, 1000⟩, ⟨2, 0⟩], [], [], 0⟩ ⟨⟨[⟨1, 1000⟩, ⟨2, 0⟩], [], [], 0⟩, []⟩
      ⟨"k2", 1, 2, ⟨50, 1⟩⟩ ⟨1, 1000⟩ ⟨2, 0⟩ ⟨1, 1000⟩ ⟨2, 0⟩
      (by decide) (by decide) (by decide) (by decide) (by decide) (by decide)).1
      (by decide) (by decide) (by decide)).1,
   ((C6_amended ⟨[⟨1, 1000⟩, ⟨2, 0⟩], [], [], 0⟩ ⟨⟨[⟨1, 1000⟩, ⟨2, 0⟩], [], [], 0⟩, []⟩
      ⟨"k2", 1, 2, ⟨50, 1⟩⟩ ⟨1, 1000⟩ ⟨2, 0⟩ ⟨1, 1000⟩ ⟨2, 0⟩
      (by decide) (by decide) (by decide) (by decide) (by decide) (by decide)).1
      (by decide) (by decide) (by decide)).2.2.2.2.1⟩

/-- C7 (counterexample): the module-level `executeTransfer` never validates
the idempotency key: called with the empty key it runs the full state
machine, commits a log row and moves money — the claim says it must fail
with MissingIdempotencyKey and leave no persistence side effect. -/
theorem C7_counterexample :
    (executeTransfer ⟨[⟨1, 100000⟩, ⟨2, 50000⟩], [], [], 0⟩
      ⟨"", 1, 2, ⟨100, 1⟩⟩).db.logs.length = 1 ∧
    (executeTransfer ⟨[⟨1, 100000⟩, ⟨2, 50000⟩], [], [], 0⟩
      ⟨"", 1, 2, ⟨100, 1⟩⟩).db.wallets = [⟨1, 90000⟩, ⟨2, 60000⟩] ∧
    (executeTransfer ⟨[⟨1, 100000⟩, ⟨2, 50000⟩], [], [], 0⟩
      ⟨"", 1, 2, ⟨100, 1⟩⟩).result.isOk = true := by
  decide

/-- C7 (amended): the class-based service checks the empty idempotency key
synchronously (IdempotencyKeyNotFoundError, the MissingIdempotencyKey of the
specification) with no state change; both engines reject `amount ≤ 0` and
same-wallet transfers synchronously with InvalidTransfer and no state
change.  The module-level `executeTransfer` performs no key check (see the
counterexample). -/
theorem C7_amended (db : DB) (st : WSState) (req : TransferRequest) :
    (req.idempotencyKey = "" →
      executeTransferWS st req =
        ⟨.error (.idempotencyKeyNotFound "Idempotency-Key header is required for transfers."),
          st, []⟩) ∧
    (fracNonpos (toDouble req.amount) →
      executeTransfer db req =
        ⟨.error (.invalidTransfer "Transfer amount must be greater than zero"), db, []⟩) ∧
    (¬ req.idempotencyKey = "" → fracNonpos (toDouble req.amount) →
      executeTransferWS st req =
        ⟨.error (.invalidTransfer "Transfer amount must be greater than zero"), st, []⟩) ∧
    (¬ fracNonpos (toDouble req.amount) → req.fromWalletId = req.toWalletId →
      executeTransfer db req =
        ⟨.error (.invalidTransfer "Cannot transfer to the same wallet"), db, []⟩) ∧
    (¬ req.idempotencyKey = "" → ¬ fracNonpos (toDouble req.amount) → req.fromWalletId = req.toWalletId →
      executeTransferWS st req =
        ⟨.error (.invalidTransfer "Cannot transfer to the same wallet"), st, []⟩) := by
  refine ⟨?_, ?_, ?_, ?_, ?_⟩
  · intro hkey
    unfold executeTransferWS
    rw [if_pos hkey]
  · intro h1
    unfold executeTransfer
    rw [if_pos h1]
  · intro hkey h1
    unfold executeTransferWS
    rw [if_neg hkey, if_pos h1]
  · intro h1 h2
    unfold executeTransfer
    rw [if_neg h1, if_pos h2]
  · intro hkey h1 h2
    unfold executeTransferWS
    rw [if_neg hkey, if_neg h1, if_pos h2]

/-- C7 (witness): the cached service rejects the empty key with no state
change, and the module-level engine rejects a same-wallet transfer with no
state change. -/
theorem C7_witness :
    executeTransferWS ⟨⟨[⟨1, 1000⟩], [], [], 0⟩, []⟩ ⟨"", 1, 2, ⟨100, 1⟩⟩ =
      ⟨.error (.idempotencyKeyNotFound "Idempotency-Key header is required for transfers."),
        ⟨⟨[⟨1, 1000⟩], [], [], 0⟩, []⟩, []⟩ ∧
    executeTransfer ⟨[⟨1, 1000⟩], [], [], 0⟩ ⟨"k", 5, 5, ⟨100, 1⟩⟩ =
      ⟨.error (.invalidTransfer "Cannot transfer to the same wallet"),
        ⟨[⟨1, 1000⟩], [], [], 0⟩, []⟩ :=
  ⟨(C7_amended ⟨[⟨1, 1000⟩], [], [], 0⟩ ⟨⟨[⟨1, 1000⟩], [], [], 0⟩, []⟩
      ⟨"", 1, 2, ⟨100, 1⟩⟩).1 rfl,
   (C7_amended ⟨[⟨1, 1000⟩], [], [], 0⟩ ⟨⟨[⟨1, 1000⟩], [], [], 0⟩, []⟩
      ⟨"k", 5, 5, ⟨100, 1⟩⟩).2.2.2.1 (by decide) rfl⟩

/-- C4 (counterexample): a transfer of the fractional-cent amount 1.005
from a wallet holding 100.00 to an empty wallet commits a COMPLETED log of
amount 1.01 (the DECIMAL(20, 2) rounding of the serialized numeral) whose
DEBIT row moves 100.00 to 99.00 (toFixed(2) of the binary64 value of
100 - 1.005) and whose CREDIT row moves 0.00 to 1.00 (toFixed(2) of the
binary64 value of 1.005): both ledger arithmetic equalities fail
(99.00 = 100.00 - 1.01 is false, 1.00 = 0.00 + 1.01 is false), so the
double-entry invariant does not hold of the committed state. -/
theorem C4_counterexample :
    (executeTransfer ⟨[⟨1, 10000⟩, ⟨2, 0⟩], [], [], 0⟩
        ⟨"kc4", 1, 2, ⟨1005, 1000⟩⟩).db.logs =
      [⟨0, "kc4", 1, 2, 101, .COMPLETED, none, 0⟩] ∧
    ledgerRowsFor (executeTransfer ⟨[⟨1, 10000⟩, ⟨2, 0⟩], [], [], 0⟩
        ⟨"kc4", 1, 2, ⟨1005, 1000⟩⟩).db.ledgers 0 =
      [⟨1, 0, .DEBIT, 101, 10000, 9900, "Transfer to wallet 2"⟩,
       ⟨2, 0, .CREDIT, 101, 0, 100, "Transfer from wallet 1"⟩] ∧
    ¬ ledgerInvariant (executeTransfer ⟨[⟨1, 10000⟩, ⟨2, 0⟩], [], [], 0⟩
        ⟨"kc4", 1, 2, ⟨1005, 1000⟩⟩).db := by
  refine ⟨by decide, by decide, ?_⟩
  intro hinv
  have hmem : (⟨0, "kc4", 1, 2, 101, .COMPLETED, none, 0⟩ : TransactionLogRow) ∈
      (executeTransfer ⟨[⟨1, 10000⟩, ⟨2, 0⟩], [], [], 0⟩
        ⟨"kc4", 1, 2, ⟨1005, 1000⟩⟩).db.logs := by decide
  obtain ⟨d, c, hrows, hprops⟩ := (hinv _ hmem).1 (by decide)
  have hid : (⟨0, "kc4", 1, 2, 101, .COMPLETED, none, 0⟩ : TransactionLogRow).id = 0 := rfl
  rw [hid] at hrows
  have hev : ledgerRowsFor (executeTransfer ⟨[⟨1, 10000⟩, ⟨2, 0⟩], [], [], 0⟩
      ⟨"kc4", 1, 2, ⟨1005, 1000⟩⟩).db.ledgers 0 =
      [⟨1, 0, .DEBIT, 101, 10000, 9900, "Transfer to wallet 2"⟩,
       ⟨2, 0, .CREDIT, 101, 0, 100, "Transfer from wallet 1"⟩] := by decide
  rw [hev] at hrows
  injection hrows with h1 h2
  injection h2 with h2 h3
  subst h1
  subst h2
  exact absurd hprops.2.2.2.2.2.2.2 (by decide)

/-- C4 (amended): over any sequence of transfers on each of which the
float-and-rounding pipeline computes exact cent arithmetic — as it does for
integer-cent amounts on balances in the exactly-representable range — from a
state with no logs and no ledger rows, every committed state satisfies the
double-entry shape: each COMPLETED TransactionLog owns exactly two Ledger
rows, a DEBIT on the source wallet with balance_after = balance_before -
amount and a CREDIT on the destination with balance_after = balance_before +
amount, both over the amount of the log, and each PENDING or FAILED log owns
none.  Fractional-cent amounts commit states that violate the arithmetic
equalities (see the counterexample). -/
theorem C4_amended (db₀ db : DB)
    (hlogs : db₀.logs = []) (hleds : db₀.ledgers = [])
    (h : ExactReachable db₀ db) : ledgerInvariant db := by
  have hinv : ledgerInvariant db ∧ idsBounded db := by
    induction h with
    | init =>
      refine ⟨?_, ?_, ?_⟩
      · intro l hl
        rw [hlogs] at hl
        simp at hl
      · intro l hl
        rw [hlogs] at hl
        simp at hl
      · intro e he
        rw [hleds] at he
        simp at he
    | step db req hex _ ih => exact ledger_invariant_step db req hex ih.1 ih.2
  exact hinv.1

/-- C4 (witness): one concrete completed integer-cent transfer (100.00 from
a 1000.00 wallet) from the empty initial state satisfies the ledger
invariant; its pipeline is exact. -/
theorem C4_witness :
    ledgerInvariant (executeTransfer ⟨[⟨1, 100000⟩, ⟨2, 50000⟩], [], [], 0⟩
      ⟨"k", 1, 2, ⟨100, 1⟩⟩).db :=
  C4_amended ⟨[⟨1, 100000⟩, ⟨2, 50000⟩], [], [], 0⟩ _ rfl rfl
    (ExactReachable.step _ _ (by decide) ExactReachable.init)

/-- C5 (counterexample): a transfer of the fractional-cent amount 0.015 from
a wallet holding 1.00 to an empty wallet commits balances 0.98 and 0.01
(toFixed(2) of the binary64 values of 1 - 0.015 and of 0.015) with committed
ledger amount 0.02 (DECIMAL(20, 2) rounding of 0.015): the destination
violates the per-wallet ledger equation (0.01 = 0.00 + 0.02 is false) and
the total of all balances drops from 1.00 to 0.99, so one cent vanishes. -/
theorem C5_counterexample :
    (executeTransfer ⟨[⟨1, 100⟩, ⟨2, 0⟩], [], [], 0⟩
        ⟨"kc5", 1, 2, ⟨15, 1000⟩⟩).db.wallets = [⟨1, 98⟩, ⟨2, 1⟩] ∧
    totalBalance (executeTransfer ⟨[⟨1, 100⟩, ⟨2, 0⟩], [], [], 0⟩
        ⟨"kc5", 1, 2, ⟨15, 1000⟩⟩).db.wallets ≠ totalBalance [⟨1, 100⟩, ⟨2, 0⟩] ∧
    ∃ w ∈ (executeTransfer ⟨[⟨1, 100⟩, ⟨2, 0⟩], [], [], 0⟩
        ⟨"kc5", 1, 2, ⟨15, 1000⟩⟩).db.wallets,
      ∀ w₀ ∈ ([⟨1, 100⟩, ⟨2, 0⟩] : List WalletRow), w₀.id = w.id →
        w.balance ≠ w₀.balance +
          creditSum (executeTransfer ⟨[⟨1, 100⟩, ⟨2, 0⟩], [], [], 0⟩
            ⟨"kc5", 1, 2, ⟨15, 1000⟩⟩).db.ledgers w.id -
          debitSum (executeTransfer ⟨[⟨1, 100⟩, ⟨2, 0⟩], [], [], 0⟩
            ⟨"kc5", 1, 2, ⟨15, 1000⟩⟩).db.ledgers w.id := by
  decide

/-- C5 (amended): over any sequence of transfers on each of which the float
pipeline computes exact cent arithmetic — integer-cent amounts in range —
from a state with distinct wallet ids and no ledger rows, every wallet
balance in every committed state equals its initial balance plus the CREDIT
amounts minus the DEBIT amounts over its ledger rows, and the total of all
balances equals the initial total.  Fractional-cent amounts break both
equalities (see the counterexample). -/
theorem C5_amended (db₀ db : DB)
    (hnd : (walletIds db₀.wallets).Nodup) (hleds : db₀.ledgers = [])
    (h : ExactReachable db₀ db) :
    (∀ w ∈ db.wallets, ∃ w₀, w₀ ∈ db₀.wallets ∧ w₀.id = w.id ∧
      w.balance = w₀.balance + creditSum db.ledgers w.id - debitSum db.ledgers w.id) ∧
    totalBalance db.wallets = totalBalance db₀.wallets := by
  have hinv : balanceInvariant db₀ db := by
    induction h with
    | init =>
      refine ⟨rfl, ?_, rfl⟩
      intro w hw
      refine ⟨w, hw, rfl, ?_⟩
      rw [hleds]
      simp [creditSum, debitSum]
    | step db req hex _ ih => exact balance_invariant_step db₀ db req hex hnd ih
  exact ⟨hinv.2.1, hinv.2.2⟩

/-- C5 (witness): after one concrete integer-cent transfer, both wallet
balances are explained by the ledger and the total is conserved. -/
theorem C5_witness :
    (∀ w ∈ (executeTransfer ⟨[⟨1, 100000⟩, ⟨2, 50000⟩], [], [], 0⟩
        ⟨"k", 1, 2, ⟨100, 1⟩⟩).db.wallets,
      ∃ w₀, w₀ ∈ ([⟨1, 100000⟩, ⟨2, 50000⟩] : List WalletRow) ∧ w₀.id = w.id ∧
        w.balance = w₀.balance +
          creditSum (executeTransfer ⟨[⟨1, 100000⟩, ⟨2, 50000⟩], [], [], 0⟩
            ⟨"k", 1, 2, ⟨100, 1⟩⟩).db.ledgers w.id -
          debitSum (executeTransfer ⟨[⟨1, 100000⟩, ⟨2, 50000⟩], [], [], 0⟩
            ⟨"k", 1, 2, ⟨100, 1⟩⟩).db.ledgers w.id) ∧
    totalBalance (executeTransfer ⟨[⟨1, 100000⟩, ⟨2, 50000⟩], [], [], 0⟩
      ⟨"k", 1, 2, ⟨100, 1⟩⟩).db.wallets = totalBalance [⟨1, 100000⟩, ⟨2, 50000⟩] :=
  C5_amended ⟨[⟨1, 100000⟩, ⟨2, 50000⟩], [], [], 0⟩ _ (by decide) rfl
    (ExactReachable.step _ _ (by decide) ExactReachable.init)

/-- C2 (counterexample): a first-time interest calculation issues two
separate auto-committed writes; the state committed by the first write alone
— reachable whenever the process stops between the two statements — contains
the new InterestLog row while the account balance is unchanged, contrary to
the claimed single-transaction atomicity. -/
theorem C2_counterexample :
    ((calculateDailyInterest 0 ⟨[⟨"acc", 10000⟩], []⟩ "acc" 1672531200000).commits.head?.map
      (fun d => (d.interestLogs.length, d.accounts.map (·.balance)))) =
      some (1, [10000]) ∧
    (calculateDailyInterest 0 ⟨[⟨"acc", 10000⟩], []⟩ "acc" 1672531200000).commits.length = 2 :=
  ⟨rfl, rfl⟩

/-- C2 (amended): on a first-time calculation the engine performs exactly two
commits, in order: first the bare `InterestLog.create` (log row present,
balance untouched), then the bare `account.update`; the final state carries
both the row and the updated balance, but the two writes are not atomic. -/
theorem C2_amended (tz : ℤ) (db : IDB) (aid : String) (ms : ℤ) (account : AccountRow)
    (hlog : findInterestLog db.interestLogs aid (utcDateOfMs ms) = none)
    (hacct : findAccount db.accounts aid = some account) :
    (calculateDailyInterest tz db aid ms).commits =
      [interestInsertCommit db
        (interestLogRowOf aid (utcDateOfMs ms) account.balance (localYearOfMs tz ms)),
       interestUpdateCommit
        (interestInsertCommit db
          (interestLogRowOf aid (utcDateOfMs ms) account.balance (localYearOfMs tz ms)))
        aid
        (interestLogRowOf aid (utcDateOfMs ms) account.balance
          (localYearOfMs tz ms)).newBalance] ∧
    (calculateDailyInterest tz db aid ms).db =
      interestUpdateCommit
        (interestInsertCommit db
          (interestLogRowOf aid (utcDateOfMs ms) account.balance (localYearOfMs tz ms)))
        aid
        (interestLogRowOf aid (utcDateOfMs ms) account.balance
          (localYearOfMs tz ms)).newBalance ∧
    (interestInsertCommit db
      (interestLogRowOf aid (utcDateOfMs ms) account.balance (localYearOfMs tz ms))).accounts =
      db.accounts := by
  rw [calculateDailyInterest_first_time tz db aid ms account hlog hacct]
  exact ⟨rfl, rfl, rfl⟩

/-- C2 (witness): concrete first-time calculation for 2023-01-01 UTC on an
account with balance 10000. -/
theorem C2_witness :
    (calculateDailyInterest 0 ⟨[⟨"acc", 10000⟩], []⟩ "acc" 1672531200000).db =
      interestUpdateCommit
        (interestInsertCommit ⟨[⟨"acc", 10000⟩], []⟩
          (interestLogRowOf "acc" (utcDateOfMs 1672531200000) (10000 : ℚ)
            (localYearOfMs 0 1672531200000)))
        "acc"
        (interestLogRowOf "acc" (utcDateOfMs 1672531200000) (10000 : ℚ)
          (localYearOfMs 0 1672531200000)).newBalance :=
  (C2_amended 0 ⟨[⟨"acc", 10000⟩], []⟩ "acc" 1672531200000 ⟨"acc", 10000⟩ rfl rfl).2.1

/-- C8: on a first-time calculation the persisted and returned figures follow
the decimal.js pipeline — `interest = principal × (0.275 / daysInYear)` at
precision 20 with ROUND_HALF_UP, persisted via `toFixed(8)`, and
`new_balance = principal + interest` likewise — and on the concrete S5
scenario (principal 10000.00000000, year 2023) they evaluate to
`interest_amount = 7.53424658`, `new_balance = 10007.53424658`,
`days_in_year = 365`, `annual_rate = 0.275000`. -/
theorem C8_interest_math (tz : ℤ) (db : IDB) (aid : String) (ms : ℤ) (account : AccountRow)
    (hlog : findInterestLog db.interestLogs aid (utcDateOfMs ms) = none)
    (hacct : findAccount db.accounts aid = some account) :
    ((calculateDailyInterest tz db aid ms).result =
      .ok (interestResultOf aid (utcDateOfMs ms) account.balance (localYearOfMs tz ms))) ∧
    (∀ a d (p : ℚ) (y : ℤ),
      (interestResultOf a d p y).interestAmount =
        decToFixed 8 (decMul p (decDiv ANNUAL_INTEREST_RATE (getDaysInYear y))) ∧
      (interestResultOf a d p y).newBalance =
        decToFixed 8 (decAdd p (decMul p (decDiv ANNUAL_INTEREST_RATE (getDaysInYear y)))) ∧
      (interestResultOf a d p y).annualRate = decToFixed 6 ANNUAL_INTEREST_RATE ∧
      (interestResultOf a d p y).daysInYear = getDaysInYear y) ∧
    ((calculateDailyInterest 0 ⟨[⟨"acc", 10000⟩], []⟩ "acc" 1672531200000).result.toOption.map
      (fun r => (r.interestAmount, r.newBalance, r.daysInYear, r.annualRate,
        r.principalBalance))) =
      some (753424658 / 10 ^ 8, 1000753424658 / 10 ^ 8, 365, 275000 / 10 ^ 6, 10000) := by
  refine ⟨?_, ?_, ?_⟩
  · rw [calculateDailyInterest_first_time tz db aid ms account hlog hacct]
  · intro a d p y
    exact ⟨rfl, rfl, rfl, rfl⟩
  · rw [calculateDailyInterest_first_time 0 ⟨[⟨"acc", 10000⟩], []⟩ "acc" 1672531200000
      ⟨"acc", 10000⟩ rfl rfl]
    have hyear : localYearOfMs 0 1672531200000 = 2023 := by decide
    have hprin : decToFixed 8 (10000 : ℚ) = 10000 := by
      rw [decToFixed_eval 8 _ 1000000000000]
      · norm_num
      · rw [roundHalfUpAway_of_nonneg _ (by positivity)]
        norm_num
    simp only [Except.toOption, Option.map, interestResultOf, hyear]
    rw [interest_10000_2023_fixed8, newBalance_10000_2023_fixed8, annualRate_fixed6, hprin]
    norm_num [getDaysInYear, isLeapYear]

/-- C8 (witness): the general formula applied at the S5 input. -/
theorem C8_witness :
    (calculateDailyInterest 0 ⟨[⟨"acc", 10000⟩], []⟩ "acc" 1672531200000).result =
      .ok (interestResultOf "acc" (utcDateOfMs 1672531200000) (10000 : ℚ)
        (localYearOfMs 0 1672531200000)) :=
  (C8_interest_math 0 ⟨[⟨"acc", 10000⟩], []⟩ "acc" 1672531200000 ⟨"acc", 10000⟩ rfl rfl).1

/-- C9 (counterexample): the same instant 2023-12-31T23:30Z yields the same
UTC calculation date but different `days_in_year` values depending on the
process time zone (365 at UTC, 366 at UTC+1 where the local year is the leap
year 2024): the pair (calculation_date, year) is not time-zone independent,
because `year` comes from the local `getFullYear()`. -/
theorem C9_counterexample :
    ((calculateDailyInterest 0 ⟨[⟨"acc", 10000⟩], []⟩ "acc" 1704065400000).result.toOption.map
      (fun r => (r.calculationDate, r.daysInYear))) = some (⟨2023, 12, 31⟩, 365) ∧
    ((calculateDailyInterest (-60) ⟨[⟨"acc", 10000⟩], []⟩ "acc"
        1704065400000).result.toOption.map
      (fun r => (r.calculationDate, r.daysInYear))) = some (⟨2023, 12, 31⟩, 366) := by
  constructor <;> rfl

/-- C9 (amended): `calculation_date` is the UTC calendar date of the input —
independent of the process time zone by construction — but `year` is the
*local* civil year of the input; it coincides with the UTC year exactly when
the process runs at UTC offset 0. -/
theorem C9_amended (tz : ℤ) (db : IDB) (aid : String) (ms : ℤ) (account : AccountRow)
    (hlog : findInterestLog db.interestLogs aid (utcDateOfMs ms) = none)
    (hacct : findAccount db.accounts aid = some account) :
    ((calculateDailyInterest tz db aid ms).result.toOption.map (·.calculationDate)) =
      some (utcDateOfMs ms) ∧
    ((calculateDailyInterest tz db aid ms).result.toOption.map (·.daysInYear)) =
      some (getDaysInYear (localYearOfMs tz ms)) ∧
    localYearOfMs 0 ms = (utcDateOfMs ms).year := by
  rw [calculateDailyInterest_first_time tz db aid ms account hlog hacct]
  refine ⟨rfl, rfl, ?_⟩
  simp only [localYearOfMs, utcDateOfMs]
  norm_num

/-- C9 (witness): the amended statement at the boundary instant. -/
theorem C9_witness :
    ((calculateDailyInterest (-60) ⟨[⟨"acc", 10000⟩], []⟩ "acc"
        1704065400000).result.toOption.map (·.calculationDate)) =
      some (utcDateOfMs 1704065400000) ∧
    localYearOfMs 0 1704065400000 = (utcDateOfMs 1704065400000).year :=
  ⟨(C9_amended (-60) ⟨[⟨"acc", 10000⟩], []⟩ "acc" 1704065400000 ⟨"acc", 10000⟩ rfl rfl).1,
   (C9_amended (-60) ⟨[⟨"acc", 10000⟩], []⟩ "acc" 1704065400000 ⟨"acc", 10000⟩ rfl rfl).2.2⟩

end IdempotentWallet
